import Mathlib

/-
  Verification development for the animated-props subsystem of this
  react-native fork:
  - src/Libraries/Animated/src/nodes/AnimatedProps.js  (class AnimatedProps)
  - src/unnamed/part_000                               (two generations of
    createAnimatedComponent: the first with _animatedPropsCallback and
    _attachProps, the second with an inline callback and updateView based
    wiring)

  The JavaScript is shallowly embedded: the mutable AnimatedProps instance
  becomes an explicit state record (AState); methods become functions from
  state to Except String (trace x state), where the trace is the list of
  externally visible graph/backend operations (addChild, removeChild,
  makeNative on a node, event attach/detach, view connect/disconnect) and
  Except.error models a thrown invariant violation.  JS undefined for a
  missing bag entry is Option.none; deepDiffer is structural inequality of
  the embedded values.
-/

deriving instance DecidableEq for Except

namespace AnimatedRN

/-- An entry of a plain style object: either a plain numeric style value or an
AnimatedNode reference (identified by id, with its native flag and current
value). -/
inductive StyleEntry where
  | plainE (v : Int)
  | nodeE (id : Nat) (isNat : Bool) (v : Int)
deriving DecidableEq, Repr

/-- A value stored in a property bag, classifying the JS dynamic checks:
plain values, AnimatedNode instances (node), AnimatedStyle instances
(styleNode), plain style objects (styleObj), and AnimatedEvent instances
(event, carrying the cached _attachedEvent state). -/
inductive PropValue where
  | plain (v : Int)
  | plainB (b : Bool)
  | node (id : Nat) (isNat : Bool) (v : Int)
  | styleObj (entries : List (String × StyleEntry))
  | styleNode (id : Nat) (isNat : Bool) (entries : List (String × StyleEntry))
  | event (name : String) (isNat : Bool) (attachedEvent : Option Nat)
deriving DecidableEq, Repr

/-- A property bag: an ordered mapping from prop name to value, as a JS
object is. -/
abbrev Bag := List (String × PropValue)

/-- Identity of a node in the animated dependency graph: either an
AnimatedNode/AnimatedStyle supplied in the bag (rawNode, by its id) or an
AnimatedStyle composite created internally by AnimatedProps (comp, by a
counter). -/
inductive NodeId where
  | rawNode (id : Nat)
  | comp (cid : Nat)
deriving DecidableEq, Repr

/-- Externally visible operations performed by AnimatedProps on the graph,
the events and the native backend. -/
inductive Effect where
  | addChild (n : NodeId)
  | removeChild (n : NodeId)
  | makeNodeNative (n : NodeId)
  | eventAttach (viewTag : Nat) (key : String)
  | eventDetach (viewTag : Nat) (key : String)
  | connectView (viewTag : Nat)
  | disconnectView (viewTag : Nat)
deriving DecidableEq, Repr

/-- The internally cached AnimatedStyle composite (this._styleProp): its
identity, the style-object source it normalizes, and its native flag. -/
structure StyleComposite where
  cid : Nat
  src : List (String × StyleEntry)
  isNat : Bool
deriving DecidableEq, Repr

/-- The state of one AnimatedProps instance: the fields _props, _view,
__isNative, _styleProp, _firstValueReturned, _reattachAll of the JS class,
plus a counter for fresh composite identities. -/
structure AState where
  props : Bag
  view : Option Nat
  isNative : Bool
  styleProp : Option StyleComposite
  firstValueReturned : Bool
  reattachAll : Bool
  nextCompId : Nat
deriving DecidableEq, Repr

/-- A resolved value as produced by __getValue/__getAnimatedValue. -/
inductive RVal where
  | num (v : Int)
  | boolV (b : Bool)
  | styleR (entries : List (String × Int))
  | rawObj (entries : List (String × StyleEntry))
  | handlerR (name : String)
deriving DecidableEq, Repr

/-- value instanceof AnimatedNode (AnimatedStyle extends AnimatedNode). -/
def isAnimatedNodeV : PropValue → Bool
  | .node _ _ _ => true
  | .styleNode _ _ _ => true
  | _ => false

/-- value instanceof AnimatedEvent. -/
def isAnimatedEventV : PropValue → Bool
  | .event _ _ _ => true
  | _ => false

/-- value instanceof AnimatedStyle. -/
def isAnimatedStyleV : PropValue → Bool
  | .styleNode _ _ _ => true
  | _ => false

/-- instanceof AnimatedStyle on a possibly-undefined value. -/
def isAnimatedStyleOpt : Option PropValue → Bool
  | some v => isAnimatedStyleV v
  | none => false

/-- Graph identity of a bag value, when it is an AnimatedNode. -/
def nodeIdOf : PropValue → Option NodeId
  | .node id _ _ => some (.rawNode id)
  | .styleNode id _ _ => some (.rawNode id)
  | _ => none

/-- object[key] in JS: none models undefined. -/
def bagLookup : Bag → String → Option PropValue
  | [], _ => none
  | p :: rest, k => if p.1 = k then some p.2 else bagLookup rest k

/-- object[key] = v in JS for a key already present (used by updateProps on
the copied bag, whose key set it never changes); assigning the undefined
lookup of an absent key is the identity here. -/
def bagSet (bag : Bag) (k : String) (v : Option PropValue) : Bag :=
  match v with
  | none => bag
  | some v0 => bag.map (fun p => if p.1 = k then (p.1, v0) else p)

/-- The destructuring in animatedDiff/animatedEventDiff: drop the cached
_attachedEvent state of an AnimatedEvent before comparison. -/
def stripAttachedEvent : Option PropValue → Option PropValue
  | some (.event name isNat _) => some (.event name isNat none)
  | v => v

/-- animatedDiff of AnimatedProps.js (also animatedEventDiff of the first
createAnimatedComponent): deepDiffer after excluding the cached
_attachedEvent state from AnimatedEvent values. -/
def animatedDiff (a b : Option PropValue) : Bool :=
  decide (stripAttachedEvent a ≠ stripAttachedEvent b)

/-- animatedValueDiff of the first createAnimatedComponent: plain deepDiffer,
modelled as structural inequality. -/
def animatedValueDiff (a b : Option PropValue) : Bool :=
  decide (a ≠ b)

/-- Modelled from the spec: AnimatedStyle.__getValue (AnimatedStyle.js is not
under src/) resolves the nested style mapping to current values. -/
def resolveStyle (entries : List (String × StyleEntry)) : List (String × Int) :=
  entries.map (fun p => (p.1, match p.2 with
    | .plainE v => v
    | .nodeE _ _ v => v))

/-- Modelled from the spec: AnimatedStyle.__getAnimatedValue (AnimatedStyle.js
is not under src/) returns only the animated-derived entries of the style,
resolved to their current values. -/
def resolveStyleAnimated (entries : List (String × StyleEntry)) : List (String × Int) :=
  entries.filterMap (fun p => match p.2 with
    | .nodeE _ _ v => some (p.1, v)
    | .plainE _ => none)

/-- The style-object source handed to new AnimatedStyle(value); a non
style-object source is modelled as the empty style. -/
def styleSrc : Option PropValue → List (String × StyleEntry)
  | some (.styleObj entries) => entries
  | _ => []

/-- animatedKeys of AnimatedProps.js: keys whose name is style or whose value
is an AnimatedNode or AnimatedEvent instance. -/
def isAnimatedRelevantB (bag : Bag) (k : String) : Bool :=
  (k = "style") ||
  (match bagLookup bag k with
   | some v => isAnimatedNodeV v || isAnimatedEventV v
   | none => false)

/-- Object.keys(object).filter of animatedKeys in AnimatedProps.js. -/
def animatedKeysF (bag : Bag) : List String :=
  (bag.map Prod.fst).filter (fun k => isAnimatedRelevantB bag k)

/-- animatedValueKeys of the first createAnimatedComponent: keys whose name is
style or whose value is an AnimatedNode. -/
def isAnimatedValueRelevantB (bag : Bag) (k : String) : Bool :=
  (k = "style") ||
  (match bagLookup bag k with
   | some v => isAnimatedNodeV v
   | none => false)

/-- Object.keys(object).filter of animatedValueKeys. -/
def animatedValueKeysF (bag : Bag) : List String :=
  (bag.map Prod.fst).filter (fun k => isAnimatedValueRelevantB bag k)

/-- animatedEventKeys of the first createAnimatedComponent. -/
def animatedEventKeysF (bag : Bag) : List String :=
  (bag.map Prod.fst).filter (fun k =>
    match bagLookup bag k with
    | some v => isAnimatedEventV v
    | none => false)

/-- The return value of animatedPropsChanged in the first
createAnimatedComponent: true on a key-set change, the first differing key
otherwise, false when nothing differs. -/
inductive ChangedResult where
  | changedStructural
  | changedKey (k : String)
  | unchanged
deriving DecidableEq, Repr

/-- JS truthiness of an animatedPropsChanged result (a returned key is a
string, falsy only when empty). -/
def changedTruthy : ChangedResult → Bool
  | .changedStructural => true
  | .changedKey k => decide (k ≠ "")
  | .unchanged => false

/-- animatedPropsChanged of the first createAnimatedComponent: compare the
classified key lists with deepDiffer; when equal, return the first key whose
values differ under the supplied diff, else false; on a key-set change return
true. -/
def animatedPropsChangedF (getKeys : Bag → List String)
    (diff : Option PropValue → Option PropValue → Bool)
    (lastProps nextProps : Bag) : ChangedResult :=
  let lastKeys := getKeys lastProps
  let nextKeys := getKeys nextProps
  if lastKeys = nextKeys then
    match lastKeys.find? (fun k => diff (bagLookup lastProps k) (bagLookup nextProps k)) with
    | some k => .changedKey k
    | none => .unchanged
  else .changedStructural

/-- animatedValuePropsChanged of the first createAnimatedComponent. -/
def animatedValuePropsChangedF (lastProps nextProps : Bag) : ChangedResult :=
  animatedPropsChangedF animatedValueKeysF animatedValueDiff lastProps nextProps

/-- animatedEventPropsChanged of the first createAnimatedComponent. -/
def animatedEventPropsChangedF (lastProps nextProps : Bag) : ChangedResult :=
  animatedPropsChangedF animatedEventKeysF animatedDiff lastProps nextProps

/-- AnimatedProps.__attachValueProp: normalize a non-AnimatedStyle style value
into the cached composite (failing if one is already cached), then subscribe
to the value when it is an AnimatedNode. -/
def attachValueProp (s : AState) (key : String) (value : Option PropValue) :
    Except String (List Effect × AState) :=
  if key = "style" && !(isAnimatedStyleOpt value) then
    match s.styleProp with
    | some _ => .error "Expected last style prop to be detached"
    | none =>
      .ok ([.addChild (.comp s.nextCompId)],
        { s with styleProp := some { cid := s.nextCompId, src := styleSrc value, isNat := false },
                 nextCompId := s.nextCompId + 1 })
  else
    match value.bind nodeIdOf with
    | some nid => .ok ([.addChild nid], s)
    | none => .ok ([], s)

/-- AnimatedProps.__detachValueProp: route a non-AnimatedStyle style value
through the cached composite (failing if none is cached), then unsubscribe
when the value is an AnimatedNode. -/
def detachValueProp (s : AState) (key : String) (value : Option PropValue) :
    Except String (List Effect × AState) :=
  if key = "style" && !(isAnimatedStyleOpt value) then
    match s.styleProp with
    | none => .error "Expected style prop to detach"
    | some c => .ok ([.removeChild (.comp c.cid)], { s with styleProp := none })
  else
    match value.bind nodeIdOf with
    | some nid => .ok ([.removeChild nid], s)
    | none => .ok ([], s)

/-- AnimatedProps.__attachEventProp: attach a native AnimatedEvent to the
bound view (no-op without a view, for non-events and for non-native events). -/
def attachEventProp (s : AState) (key : String) (value : Option PropValue) : List Effect :=
  match s.view, value with
  | some vt, some (.event _ true _) => [.eventAttach vt key]
  | _, _ => []

/-- AnimatedProps.__detachEventProp. -/
def detachEventProp (s : AState) (key : String) (value : Option PropValue) : List Effect :=
  match s.view, value with
  | some vt, some (.event _ true _) => [.eventDetach vt key]
  | _, _ => []

/-- AnimatedProps.__makeValuePropNative: once the instance is native, switch
the value (through the cached composite for the style key, failing if it is
missing) to native mode; returns the value as mutated by __makeNative. -/
def makeValuePropNative (s : AState) (key : String) (value : Option PropValue) :
    Except String (List Effect × Option PropValue × AState) :=
  if s.isNative = false then .ok ([], value, s)
  else if key = "style" then
    match s.styleProp with
    | none => .error "Expected style prop to make native"
    | some c =>
      .ok ([.makeNodeNative (.comp c.cid)], value, { s with styleProp := some { c with isNat := true } })
  else
    match value with
    | some (.node id _ v) => .ok ([.makeNodeNative (.rawNode id)], some (.node id true v), s)
    | some (.styleNode id _ es) => .ok ([.makeNodeNative (.rawNode id)], some (.styleNode id true es), s)
    | _ => .ok ([], value, s)

/-- AnimatedProps.__attachProp: attach the value subscription, switch it to
native if needed, attach the event binding; returns the value as possibly
mutated by __makeNative. -/
def attachProp (s : AState) (key : String) (value : Option PropValue) :
    Except String (List Effect × Option PropValue × AState) :=
  match attachValueProp s key value with
  | .error e => .error e
  | .ok (e1, s1) =>
    match makeValuePropNative s1 key value with
    | .error e => .error e
    | .ok (e2, v2, s2) => .ok (e1 ++ e2 ++ attachEventProp s2 key value, v2, s2)

/-- AnimatedProps.__detachProp. -/
def detachProp (s : AState) (key : String) (value : Option PropValue) :
    Except String (List Effect × AState) :=
  match detachValueProp s key value with
  | .error e => .error e
  | .ok (e1, s1) => .ok (e1 ++ detachEventProp s1 key value, s1)

/-- AnimatedProps.__replaceProp: for the style key take the old binding from
the cached composite (failing if missing) and clear the cache; then attach
the new binding and afterwards detach the old one. -/
def replaceProp (s : AState) (key : String) (lastValue nextValue : Option PropValue) :
    Except String (List Effect × Option PropValue × AState) :=
  if key = "style" then
    match s.styleProp with
    | none => .error "Expected style prop to detach"
    | some oldC =>
      match attachProp { s with styleProp := none } key nextValue with
      | .error e => .error e
      | .ok (e1, v1, s1) => .ok (e1 ++ [.removeChild (.comp oldC.cid)], v1, s1)
  else
    match attachProp s key nextValue with
    | .error e => .error e
    | .ok (e1, v1, s1) =>
      match detachProp s1 key lastValue with
      | .error e => .error e
      | .ok (e2, s2) => .ok (e1 ++ e2, v1, s2)

/-- AnimatedProps.__attachValueProps, iterating the given entries. -/
def attachValuePropsGo : AState → List (String × PropValue) → Except String (List Effect × AState)
  | s, [] => .ok ([], s)
  | s, (k, v) :: rest =>
    match attachValueProp s k (some v) with
    | .error e => .error e
    | .ok (e1, s1) =>
      match attachValuePropsGo s1 rest with
      | .error e => .error e
      | .ok (e2, s2) => .ok (e1 ++ e2, s2)

/-- AnimatedProps.__attachEventProps over the current bag. -/
def attachEventPropsF (s : AState) : List Effect :=
  s.props.flatMap (fun p => attachEventProp s p.1 (some p.2))

/-- AnimatedProps.__detachEventProps over the current bag. -/
def detachEventPropsF (s : AState) : List Effect :=
  s.props.flatMap (fun p => detachEventProp s p.1 (some p.2))

/-- AnimatedProps.__detachValueProps, iterating the given entries. -/
def detachValuePropsGo : AState → List (String × PropValue) → Except String (List Effect × AState)
  | s, [] => .ok ([], s)
  | s, (k, v) :: rest =>
    match detachValueProp s k (some v) with
    | .error e => .error e
    | .ok (e1, s1) =>
      match detachValuePropsGo s1 rest with
      | .error e => .error e
      | .ok (e2, s2) => .ok (e1 ++ e2, s2)

/-- AnimatedProps.__connectView: connect the node to the bound view through
the backend, only when native and a view is bound. -/
def connectViewEffs (s : AState) : List Effect :=
  match s.view with
  | some vt => if s.isNative then [.connectView vt] else []
  | none => []

/-- AnimatedProps.__disconnectView. -/
def disconnectViewEffs (s : AState) : List Effect :=
  match s.view with
  | some vt => if s.isNative then [.disconnectView vt] else []
  | none => []

/-- AnimatedProps.updateView: short-circuit on a reference-identical view;
otherwise detach events, disconnect the old view, rebind, connect the new
view, reattach events, in that order. -/
def updateView (s : AState) (nextView : Option Nat) : List Effect × AState :=
  if s.view = nextView then ([], s)
  else
    let e1 := detachEventPropsF s
    let e2 := disconnectViewEffs s
    let s1 := { s with view := nextView }
    let e3 := connectViewEffs s1
    let e4 := attachEventPropsF s1
    (e1 ++ e2 ++ e3 ++ e4, s1)

/-- AnimatedProps.__makeValuePropsNative over the current bag, rebuilding the
bag with the values as mutated by __makeNative. -/
def makeValuePropsNativeGo : AState → List (String × PropValue) →
    Except String (List Effect × List (String × PropValue) × AState)
  | s, [] => .ok ([], [], s)
  | s, (k, v) :: rest =>
    match makeValuePropNative s k (some v) with
    | .error e => .error e
    | .ok (e1, v1, s1) =>
      match makeValuePropsNativeGo s1 rest with
      | .error e => .error e
      | .ok (e2, rest2, s2) => .ok (e1 ++ e2, (k, v1.getD v) :: rest2, s2)

/-- AnimatedProps.__makeValuePropsNative. -/
def makeValuePropsNative (s : AState) : Except String (List Effect × AState) :=
  match makeValuePropsNativeGo s s.props with
  | .error e => .error e
  | .ok (e1, props1, s1) => .ok (e1, { s1 with props := props1 })

/-- AnimatedProps.__makeNative: return immediately when already native; if a
snapshot was already returned set the reattach-all flag; then mark native,
switch every value prop to native and connect the view. -/
def makeNative (s : AState) : Except String (List Effect × AState) :=
  if s.isNative then .ok ([], s)
  else
    let s1 : AState :=
      { s with reattachAll := if s.firstValueReturned then true else s.reattachAll,
               isNative := true }
    match makeValuePropsNative s1 with
    | .error e => .error e
    | .ok (e1, s2) => .ok (e1 ++ connectViewEffs s2, s2)

/-- The nextKeys.forEach loop of AnimatedProps.updateProps: replace a key when
the reattach-all flag is set or its values differ, otherwise carry the last
value over by reference; filter each processed key out of the pending last
keys. -/
def updatePropsGo (ra : Bool) (lastProps : Bag) :
    AState → Bag → List String → List String →
    Except String (List Effect × Bag × List String × AState)
  | s, nb, lks, [] => .ok ([], nb, lks, s)
  | s, nb, lks, key :: rest =>
    if ra || animatedDiff (bagLookup lastProps key) (bagLookup nb key) then
      match replaceProp s key (bagLookup lastProps key) (bagLookup nb key) with
      | .error e => .error e
      | .ok (e1, v1, s1) =>
        match updatePropsGo ra lastProps s1 (bagSet nb key v1)
            (lks.filter (fun k => !(k = key : Bool))) rest with
        | .error e => .error e
        | .ok (e2, nb2, lks2, s2) => .ok (e1 ++ e2, nb2, lks2, s2)
    else
      match updatePropsGo ra lastProps s (bagSet nb key (bagLookup lastProps key))
          (lks.filter (fun k => !(k = key : Bool))) rest with
      | .error e => .error e
      | .ok (e2, nb2, lks2, s2) => .ok (e2, nb2, lks2, s2)

/-- The lastKeys.forEach loop of AnimatedProps.updateProps: detach every key
that was not carried into the next bag. -/
def detachPropsGo (lastProps : Bag) : AState → List String → Except String (List Effect × AState)
  | s, [] => .ok ([], s)
  | s, k :: rest =>
    match detachProp s k (bagLookup lastProps k) with
    | .error e => .error e
    | .ok (e1, s1) =>
      match detachPropsGo lastProps s1 rest with
      | .error e => .error e
      | .ok (e2, s2) => .ok (e1 ++ e2, s2)

/-- AnimatedProps.updateProps. -/
def updateProps (s : AState) (nextProps : Bag) : Except String (List Effect × AState) :=
  match updatePropsGo s.reattachAll s.props s nextProps (animatedKeysF s.props)
      (animatedKeysF nextProps) with
  | .error e => .error e
  | .ok (e1, nb, lks, s1) =>
    match detachPropsGo s.props s1 lks with
    | .error e => .error e
    | .ok (e2, s2) => .ok (e1 ++ e2, { s2 with props := nb, reattachAll := false })

/-- One entry of the reduce in AnimatedProps.__getValue: the style key always
resolves through the cached composite (failing when it is missing); an
AnimatedNode value is resolved unless it is native (AnimatedStyle values are
resolved even when native); an AnimatedEvent resolves to its handler; plain
values pass through. Returns none when the key is omitted. -/
def resolveValueEntry (s : AState) (k : String) (v : PropValue) :
    Except String (Option (String × RVal)) :=
  if k = "style" then
    match s.styleProp with
    | none => .error "Expected style prop"
    | some c => .ok (some (k, .styleR (resolveStyle c.src)))
  else
    match v with
    | .node _ isNat val => if isNat then .ok none else .ok (some (k, .num val))
    | .styleNode _ _ es => .ok (some (k, .styleR (resolveStyle es)))
    | .event name _ _ => .ok (some (k, .handlerR name))
    | .plain n => .ok (some (k, .num n))
    | .plainB b => .ok (some (k, .boolV b))
    | .styleObj es => .ok (some (k, .rawObj es))

/-- The reduce of AnimatedProps.__getValue over the given entries. -/
def getValueGo (s : AState) : List (String × PropValue) → Except String (List (String × RVal))
  | [] => .ok []
  | (k, v) :: rest =>
    match resolveValueEntry s k v with
    | .error e => .error e
    | .ok o =>
      match getValueGo s rest with
      | .error e => .error e
      | .ok res =>
        match o with
        | some p => .ok (p :: res)
        | none => .ok res

/-- AnimatedProps.__getValue: set the snapshot-returned marker, then resolve
the bag. -/
def getValue (s : AState) : Except String (List (String × RVal) × AState) :=
  match getValueGo { s with firstValueReturned := true } s.props with
  | .error e => .error e
  | .ok res => .ok (res, { s with firstValueReturned := true })

/-- One entry of the reduce in AnimatedProps.__getAnimatedValue: the style key
resolves its animated entries through the cached composite (failing when it is
missing); AnimatedNode values resolve to their current value; everything else
is omitted. -/
def resolveAnimatedEntry (s : AState) (k : String) (v : PropValue) :
    Except String (Option (String × RVal)) :=
  if k = "style" then
    match s.styleProp with
    | none => .error "Expected style prop"
    | some c => .ok (some (k, .styleR (resolveStyleAnimated c.src)))
  else
    match v with
    | .node _ _ val => .ok (some (k, .num val))
    | .styleNode _ _ es => .ok (some (k, .styleR (resolveStyleAnimated es)))
    | _ => .ok none

/-- The reduce of AnimatedProps.__getAnimatedValue over the given entries. -/
def getAnimatedValueGo (s : AState) : List (String × PropValue) → Except String (List (String × RVal))
  | [] => .ok []
  | (k, v) :: rest =>
    match resolveAnimatedEntry s k v with
    | .error e => .error e
    | .ok o =>
      match getAnimatedValueGo s rest with
      | .error e => .error e
      | .ok res =>
        match o with
        | some p => .ok (p :: res)
        | none => .ok res

/-- AnimatedProps.__getAnimatedValue. -/
def getAnimatedValue (s : AState) : Except String (List (String × RVal)) :=
  getAnimatedValueGo s s.props

/-- The state of a freshly constructed AnimatedProps(props, callback) before
__attach runs: no view, not native, no cached composite, no snapshot
returned, reattach-all clear. -/
def initialAState (bag : Bag) : AState :=
  { props := bag, view := none, isNative := false, styleProp := none,
    firstValueReturned := false, reattachAll := false, nextCompId := 0 }

/-- new AnimatedProps(props, callback): the constructor calls __attach, which
attaches the value props and then the event props (no view is bound yet, so
the event pass produces nothing). -/
def newAnimatedProps (bag : Bag) : Except String (List Effect × AState) :=
  match attachValuePropsGo (initialAState bag) bag with
  | .error e => .error e
  | .ok (e1, s1) => .ok (e1 ++ attachEventPropsF s1, s1)

/-- AnimatedProps.__detach: disconnect the view, detach the event props, then
detach the value props. -/
def detachAnimated (s : AState) : Except String (List Effect × AState) :=
  match detachValuePropsGo s s.props with
  | .error e => .error e
  | .ok (e2, s2) => .ok (disconnectViewEffs s ++ detachEventPropsF s ++ e2, s2)

/-- The host-thread actions a change callback can take. -/
inductive CbEffect where
  | deferToMount
  | forceUpdate
  | setNativePropsCall (bag : List (String × RVal))
deriving DecidableEq, Repr

/-- The message of the error thrown when a host-thread change callback fires
for a property set already moved to native mode. -/
def nativeModeErrMsg : String :=
  "Attempting to run JS driven animation on animated node that has been moved to native earlier by starting an animation with useNativeDriver true"

/-- _animatedPropsCallback of the first createAnimatedComponent: defer before
mount; force a re-render when the test-only skip flag is set or the component
lacks setNativeProps; otherwise mutate directly with the animated-only bag
when not native, and throw when native. -/
def animatedPropsCallbackV1 (componentBound hasSNP skip : Bool) (s : AState) :
    Except String (List CbEffect) :=
  if componentBound = false then .ok [.deferToMount]
  else if skip || !hasSNP then .ok [.forceUpdate]
  else if !s.isNative then
    match getAnimatedValue s with
    | .error e => .error e
    | .ok bag => .ok [.setNativePropsCall bag]
  else
    .error nativeModeErrMsg

/-- The callback closed over in _attachProps of the second
createAnimatedComponent: when the component has setNativeProps, mutate
directly when not native and throw when native; otherwise force a re-render.
Reading setNativeProps off an unbound component is a TypeError. -/
def animatedPropsCallbackV2 (componentBound hasSNP : Bool) (s : AState) :
    Except String (List CbEffect) :=
  if componentBound = false then .error "TypeError: this._component is not an object"
  else if hasSNP then
    if !s.isNative then
      match getAnimatedValue s with
      | .error e => .error e
      | .ok bag => .ok [.setNativePropsCall bag]
    else
      .error nativeModeErrMsg
  else .ok [.forceUpdate]

/-- _attachProps of the first createAnimatedComponent: when forced or when the
animated value props changed (truthily), build a fresh AnimatedProps on the
next bag and only afterwards detach the old instance; otherwise delegate to
updateProps of the existing instance. -/
def attachPropsV1 (curProps : Bag) (anim : Option AState) (force : Bool) (nextProps : Bag) :
    Except String (List Effect × AState) :=
  if force || changedTruthy (animatedValuePropsChangedF curProps nextProps) then
    match newAnimatedProps nextProps with
    | .error e => .error e
    | .ok (e1, fresh) =>
      match anim with
      | none => .ok (e1, fresh)
      | some old =>
        match detachAnimated old with
        | .error e => .error e
        | .ok (e2, _) => .ok (e1 ++ e2, fresh)
  else
    match anim with
    | some a => updateProps a nextProps
    | none => .error "TypeError: this._propsAnimated is not an object"

/-- find in a resolved bag (props.collapsable on a __getValue result); none
models undefined. -/
def rlookup : List (String × RVal) → String → Option RVal
  | [], _ => none
  | p :: rest, k => if p.1 = k then some p.2 else rlookup rest k

/-- The collapsable prop computed by render in both createAnimatedComponent
generations: false when the props are native, the resolved collapsable value
of __getValue otherwise. -/
def renderCollapsable (s : AState) : Except String (Option RVal) :=
  match getValue s with
  | .error e => .error e
  | .ok (res, _) => .ok (if s.isNative then some (.boolV false) else rlookup res "collapsable")

/-- Number of direct-mutation calls in a callback trace. -/
def countMutations (l : List CbEffect) : Nat :=
  (l.filter (fun e => match e with | .setNativePropsCall _ => true | _ => false)).length

/-- Number of forced re-renders in a callback trace. -/
def countForceUpdates (l : List CbEffect) : Nat :=
  (l.filter (fun e => match e with | .forceUpdate => true | _ => false)).length

/-- An effect that builds up bindings (subscription, native switch, event
attachment). -/
def attachShaped (e : Effect) : Prop :=
  (∃ n, e = .addChild n) ∨ (∃ n, e = .makeNodeNative n) ∨ (∃ vt k, e = .eventAttach vt k)

/-- An effect that tears down bindings. -/
def detachShaped (e : Effect) : Prop :=
  (∃ n, e = .removeChild n) ∨ (∃ vt k, e = .eventDetach vt k) ∨ (∃ vt, e = .disconnectView vt)

/-- Extension of a per-key effect map by one key. -/
def extendF (key : String) (e : List Effect) (f : String → List Effect) : String → List Effect :=
  fun x => if x = key then e else f x

/-! ### Concrete states used to exercise the theorems -/

/-- A native-mode AnimatedProps state bound to view 9. -/
def sNativeW : AState :=
  { props := [("op", .node 1 true 5)], view := some 9, isNative := true,
    styleProp := none, firstValueReturned := true, reattachAll := false, nextCompId := 0 }

/-- A non-native AnimatedProps state bound to view 7. -/
def sPlainW : AState :=
  { props := [("op", .node 1 false 5)], view := some 7, isNative := false,
    styleProp := none, firstValueReturned := false, reattachAll := false, nextCompId := 0 }

/-- Start of the getValue-then-makeNative-then-updateProps scenario. -/
def c3s0 : AState := initialAState [("op", .node 1 false 5)]

/-- c3s0 after getValue. -/
def c3s1 : AState := { c3s0 with firstValueReturned := true }

/-- c3s1 after makeNative: native, reattach-all set, the node flagged. -/
def c3s2 : AState :=
  { c3s1 with isNative := true, reattachAll := true, props := [("op", .node 1 true 5)] }

/-- The next bag of the scenario. -/
def c3next : Bag := [("op", .node 2 true 7)]

/-- c3s2 after updateProps c3next. -/
def c3s3 : AState := { c3s2 with props := [("op", .node 2 true 7)], reattachAll := false }

/-- State whose bag has a single animated key, about to gain a second one. -/
def c4s : AState :=
  { props := [("op", .node 1 false 5)], view := none, isNative := false,
    styleProp := none, firstValueReturned := false, reattachAll := false, nextCompId := 0 }

/-- The bag of c4s with a key added. -/
def c4next : Bag := [("op", .node 1 false 5), ("lf", .node 2 false 0)]

/-- c4s after updateProps c4next. -/
def c4s2 : AState := { c4s with props := c4next }

/-- State with one animated key whose node is about to be replaced. -/
def c6s : AState :=
  { props := [("o1", .node 1 false 0)], view := none, isNative := false,
    styleProp := none, firstValueReturned := false, reattachAll := false, nextCompId := 0 }

/-- The bag of c6s with the node under o1 replaced. -/
def c6next : Bag := [("o1", .node 2 false 1)]

/-- c6s after updateProps c6next. -/
def c6s2 : AState := { c6s with props := c6next }

/-- State holding a style prop whose cached composite is already native. -/
def c7s : AState :=
  { props := [("style", .styleObj [("op", .plainE 1)])], view := some 9, isNative := true,
    styleProp := some { cid := 0, src := [("op", .plainE 1)], isNat := true },
    firstValueReturned := false, reattachAll := false, nextCompId := 1 }

/-- c7s after getValue. -/
def c7s1 : AState := { c7s with firstValueReturned := true }

/-- State mixing every kind of bag value, with the style composite cached. -/
def c7mix : AState :=
  { props := [("p", .plain 4), ("n", .node 3 true 8), ("m", .node 4 false 2),
              ("e", .event "onX" false none), ("style", .styleObj [("w", .plainE 1)])],
    view := some 2, isNative := false,
    styleProp := some { cid := 0, src := [("w", .plainE 1)], isNat := false },
    firstValueReturned := false, reattachAll := false, nextCompId := 1 }

/-- The resolved bag getValue returns for c7mix: the native value node n is
omitted, everything else resolved. -/
def c7res : List (String × RVal) :=
  [("p", .num 4), ("m", .num 2), ("e", .handlerR "onX"), ("style", .styleR [("w", 1)])]

/-- State for the diff-minimality scenario: one node key and one event key
whose cached attachment state differs. -/
def c5s : AState :=
  { props := [("a", .node 1 false 0), ("b", .event "onS" true (some 3))], view := some 2,
    isNative := false, styleProp := none, firstValueReturned := false,
    reattachAll := false, nextCompId := 0 }

/-- Next bag for c5s: the node under a changed, the event under b equal up to
its cached attachment state. -/
def c5next : Bag := [("a", .node 9 false 4), ("b", .event "onS" true none)]

/-- c5s after updateProps c5next: a replaced, b carried over by reference. -/
def c5s2 : AState :=
  { c5s with props := [("a", .node 9 false 4), ("b", .event "onS" true (some 3))] }

/-- State with a caller-supplied collapsable prop, not native. -/
def c10s : AState :=
  { props := [("collapsable", .plainB true), ("op", .node 1 false 5)], view := some 3,
    isNative := false, styleProp := none, firstValueReturned := false,
    reattachAll := false, nextCompId := 0 }

/-! ### Basic lemmas about bags and diffs -/

theorem stripAttachedEvent_eq_none {x : Option PropValue} :
    stripAttachedEvent x = none ↔ x = none := by
  cases x with
  | none => simp [stripAttachedEvent]
  | some v => cases v <;> simp [stripAttachedEvent]

theorem animatedDiff_none_some (v : PropValue) : animatedDiff none (some v) = true := by
  simp only [animatedDiff, decide_eq_true_eq]
  intro h
  have := (stripAttachedEvent_eq_none (x := some v)).mp h.symm
  exact Option.some_ne_none v this

theorem bagLookup_map_set (key k : String) (v0 : PropValue) (h : k ≠ key) :
    ∀ nb : Bag, bagLookup (nb.map (fun p => if p.1 = key then (p.1, v0) else p)) k = bagLookup nb k := by
  intro nb
  induction nb with
  | nil => rfl
  | cons p rest ih =>
    simp only [List.map_cons]
    by_cases hp : p.1 = key
    · have hpk : ¬(p.1 = k) := by
        rw [hp]; exact fun hc => h hc.symm
      simp [bagLookup, hp, hpk, h, Ne.symm h, ih]
    · by_cases hpk : p.1 = k
      · simp [bagLookup, hp, hpk, h, Ne.symm h]
      · simp [bagLookup, hp, hpk, h, Ne.symm h, ih]

theorem bagLookup_bagSet_ne (nb : Bag) (key k : String) (v : Option PropValue) (h : k ≠ key) :
    bagLookup (bagSet nb key v) k = bagLookup nb k := by
  cases v with
  | none => rfl
  | some v0 => exact bagLookup_map_set key k v0 h nb

theorem bagLookup_map_set_self (key : String) (v0 : PropValue) :
    ∀ nb : Bag, (bagLookup nb key).isSome = true →
      bagLookup (nb.map (fun p => if p.1 = key then (p.1, v0) else p)) key = some v0 := by
  intro nb
  induction nb with
  | nil => intro h; simp [bagLookup] at h
  | cons p rest ih =>
    intro h
    by_cases hp : p.1 = key
    · simp [bagLookup, hp]
    · simp only [bagLookup, hp, if_false, ite_false] at h
      simp [bagLookup, hp, ih h]

theorem bagLookup_bagSet_self (nb : Bag) (key : String) (v w : PropValue)
    (h : bagLookup nb key = some w) :
    bagLookup (bagSet nb key (some v)) key = some v := by
  have hs : (bagLookup nb key).isSome = true := by rw [h]; rfl
  simpa [bagSet] using bagLookup_map_set_self key v nb hs

theorem flatMap_congr_mem {α β : Type} (l : List α) (f g : α → List β)
    (h : ∀ x ∈ l, f x = g x) : l.flatMap f = l.flatMap g := by
  induction l with
  | nil => rfl
  | cons a rest ih =>
    simp only [List.flatMap_cons]
    rw [h a (List.mem_cons_self a rest), ih (fun x hx => h x (List.mem_cons_of_mem a hx))]

/-! ### Effect-shape lemmas -/

theorem attachValueProp_effects (s : AState) (k : String) (v : Option PropValue)
    (E : List Effect) (s1 : AState) (h : attachValueProp s k v = .ok (E, s1)) :
    ∀ e ∈ E, ∃ n, e = Effect.addChild n := by
  unfold attachValueProp at h
  split at h
  · split at h
    · exact absurd h (by simp)
    · injection h with h
      injection h with hE hs
      intro e he
      rw [← hE] at he
      simp only [List.mem_singleton] at he
      exact ⟨_, he⟩
  · split at h
    · injection h with h
      injection h with hE hs
      intro e he
      rw [← hE] at he
      simp only [List.mem_singleton] at he
      exact ⟨_, he⟩
    · injection h with h
      injection h with hE hs
      intro e he
      rw [← hE] at he
      simp at he

theorem makeValuePropNative_effects (s : AState) (k : String) (v : Option PropValue)
    (E : List Effect) (v1 : Option PropValue) (s1 : AState)
    (h : makeValuePropNative s k v = .ok (E, v1, s1)) :
    ∀ e ∈ E, ∃ n, e = Effect.makeNodeNative n := by
  unfold makeValuePropNative at h
  split at h
  · injection h with h
    injection h with hE hs
    intro e he
    rw [← hE] at he
    simp at he
  · split at h
    · split at h
      · exact absurd h (by simp)
      · injection h with h
        injection h with hE hs
        intro e he
        rw [← hE] at he
        simp only [List.mem_singleton] at he
        exact ⟨_, he⟩
    · split at h <;>
        (injection h with h; injection h with hE hs; intro e he; rw [← hE] at he) <;>
        first
          | (simp only [List.mem_singleton] at he; exact ⟨_, he⟩)
          | simp at he

theorem attachEventProp_effects (s : AState) (k : String) (v : Option PropValue) :
    ∀ e ∈ attachEventProp s k v, ∃ vt kk, e = Effect.eventAttach vt kk := by
  unfold attachEventProp
  intro e he
  split at he
  · simp only [List.mem_singleton] at he
    exact ⟨_, _, he⟩
  · simp at he

theorem detachEventProp_effects (s : AState) (k : String) (v : Option PropValue) :
    ∀ e ∈ detachEventProp s k v, ∃ vt kk, e = Effect.eventDetach vt kk := by
  unfold detachEventProp
  intro e he
  split at he
  · simp only [List.mem_singleton] at he
    exact ⟨_, _, he⟩
  · simp at he

theorem detachValueProp_effects (s : AState) (k : String) (v : Option PropValue)
    (E : List Effect) (s1 : AState) (h : detachValueProp s k v = .ok (E, s1)) :
    ∀ e ∈ E, ∃ n, e = Effect.removeChild n := by
  unfold detachValueProp at h
  split at h
  · split at h
    · exact absurd h (by simp)
    · injection h with h
      injection h with hE hs
      intro e he
      rw [← hE] at he
      simp only [List.mem_singleton] at he
      exact ⟨_, he⟩
  · split at h
    · injection h with h
      injection h with hE hs
      intro e he
      rw [← hE] at he
      simp only [List.mem_singleton] at he
      exact ⟨_, he⟩
    · injection h with h
      injection h with hE hs
      intro e he
      rw [← hE] at he
      simp at he

theorem attachProp_effects (s : AState) (k : String) (v : Option PropValue)
    (E : List Effect) (v1 : Option PropValue) (s1 : AState)
    (h : attachProp s k v = .ok (E, v1, s1)) :
    ∀ e ∈ E, attachShaped e := by
  unfold attachProp at h
  split at h
  · exact absurd h (by simp)
  · rename_i e1 sa h1
    split at h
    · exact absurd h (by simp)
    · rename_i e2 v2 sb h2
      injection h with h
      injection h with hE hrest
      intro e he
      rw [← hE] at he
      simp only [List.mem_append] at he
      rcases he with (he | he) | he
      · exact Or.inl (attachValueProp_effects s k v e1 _ h1 e he)
      · exact Or.inr (Or.inl (makeValuePropNative_effects sa k v e2 v2 sb h2 e he))
      · exact Or.inr (Or.inr (attachEventProp_effects sb k v e he))

theorem detachProp_effects (s : AState) (k : String) (v : Option PropValue)
    (E : List Effect) (s1 : AState) (h : detachProp s k v = .ok (E, s1)) :
    ∀ e ∈ E, (∃ n, e = Effect.removeChild n) ∨ (∃ vt kk, e = Effect.eventDetach vt kk) := by
  unfold detachProp at h
  split at h
  · exact absurd h (by simp)
  · rename_i e1 sa h1
    injection h with h
    injection h with hE hs
    intro e he
    rw [← hE] at he
    simp only [List.mem_append] at he
    rcases he with he | he
    · exact Or.inl (detachValueProp_effects s k v e1 sa h1 e he)
    · exact Or.inr (detachEventProp_effects sa k v e he)

theorem detachPropsGo_effects (lastProps : Bag) :
    ∀ (keys : List String) (s : AState) (E : List Effect) (s2 : AState),
    detachPropsGo lastProps s keys = .ok (E, s2) →
    ∀ e ∈ E, (∃ n, e = Effect.removeChild n) ∨ (∃ vt kk, e = Effect.eventDetach vt kk) := by
  intro keys
  induction keys with
  | nil =>
    intro s E s2 h e he
    unfold detachPropsGo at h
    injection h with h
    injection h with hE hs
    rw [← hE] at he
    simp at he
  | cons k rest ih =>
    intro s E s2 h e he
    unfold detachPropsGo at h
    split at h
    · exact absurd h (by simp)
    · rename_i e1 s1 h1
      split at h
      · exact absurd h (by simp)
      · rename_i e2 sb h2
        injection h with h
        injection h with hE hs
        rw [← hE] at he
        simp only [List.mem_append] at he
        rcases he with he | he
        · exact detachProp_effects s k _ e1 s1 h1 e he
        · exact ih s1 e2 sb h2 e he

/-! ### State-preservation lemmas -/

theorem makeValuePropNative_fields (s : AState) (k : String) (v : Option PropValue)
    (E : List Effect) (v1 : Option PropValue) (s1 : AState)
    (h : makeValuePropNative s k v = .ok (E, v1, s1)) :
    s1.props = s.props ∧ s1.view = s.view ∧ s1.isNative = s.isNative ∧
    s1.firstValueReturned = s.firstValueReturned ∧ s1.reattachAll = s.reattachAll := by
  unfold makeValuePropNative at h
  split at h
  · simp only [Except.ok.injEq, Prod.mk.injEq] at h
    obtain ⟨hE, hv, hs⟩ := h
    rw [← hs]
    exact ⟨rfl, rfl, rfl, rfl, rfl⟩
  · split at h
    · split at h
      · exact absurd h (by simp)
      · simp only [Except.ok.injEq, Prod.mk.injEq] at h
        obtain ⟨hE, hv, hs⟩ := h
        rw [← hs]
        exact ⟨rfl, rfl, rfl, rfl, rfl⟩
    · split at h <;>
        (simp only [Except.ok.injEq, Prod.mk.injEq] at h
         obtain ⟨hE, hv, hs⟩ := h
         rw [← hs]
         exact ⟨rfl, rfl, rfl, rfl, rfl⟩)

theorem makeValuePropsNativeGo_fields :
    ∀ (l : List (String × PropValue)) (s : AState) (E : List Effect)
      (props1 : List (String × PropValue)) (s1 : AState),
    makeValuePropsNativeGo s l = .ok (E, props1, s1) →
    s1.props = s.props ∧ s1.view = s.view ∧ s1.isNative = s.isNative ∧
    s1.firstValueReturned = s.firstValueReturned ∧ s1.reattachAll = s.reattachAll := by
  intro l
  induction l with
  | nil =>
    intro s E props1 s1 h
    unfold makeValuePropsNativeGo at h
    simp only [Except.ok.injEq, Prod.mk.injEq] at h
    obtain ⟨hE, hp, hs⟩ := h
    rw [← hs]
    exact ⟨rfl, rfl, rfl, rfl, rfl⟩
  | cons p rest ih =>
    intro s E props1 s1 h
    unfold makeValuePropsNativeGo at h
    split at h
    · exact absurd h (by simp)
    · rename_i e1 v1 sa h1
      split at h
      · exact absurd h (by simp)
      · rename_i e2 rest2 sb h2
        simp only [Except.ok.injEq, Prod.mk.injEq] at h
        obtain ⟨hE, hp, hs⟩ := h
        obtain ⟨ha1, ha2, ha3, ha4, ha5⟩ := makeValuePropNative_fields s p.1 (some p.2) e1 v1 sa h1
        obtain ⟨hb1, hb2, hb3, hb4, hb5⟩ := ih sa e2 rest2 sb h2
        rw [← hs]
        exact ⟨hb1.trans ha1, hb2.trans ha2, hb3.trans ha3, hb4.trans ha4, hb5.trans ha5⟩

theorem makeValuePropsNative_fields (s : AState) (E : List Effect) (s1 : AState)
    (h : makeValuePropsNative s = .ok (E, s1)) :
    s1.view = s.view ∧ s1.isNative = s.isNative ∧
    s1.firstValueReturned = s.firstValueReturned ∧ s1.reattachAll = s.reattachAll := by
  unfold makeValuePropsNative at h
  split at h
  · exact absurd h (by simp)
  · rename_i e1 props1 sa h1
    simp only [Except.ok.injEq, Prod.mk.injEq] at h
    obtain ⟨hE, hs⟩ := h
    obtain ⟨ha1, ha2, ha3, ha4, ha5⟩ := makeValuePropsNativeGo_fields s.props s e1 props1 sa h1
    rw [← hs]
    exact ⟨ha2, ha3, ha4, ha5⟩

theorem makeNative_already (s : AState) (h : s.isNative = true) :
    makeNative s = .ok ([], s) := by
  unfold makeNative
  rw [h]
  rfl

theorem makeNative_transition (s : AState) (E : List Effect) (s2 : AState)
    (h0 : s.isNative = false) (h : makeNative s = .ok (E, s2)) :
    s2.isNative = true ∧
    s2.reattachAll = (if s.firstValueReturned then true else s.reattachAll) ∧
    s2.view = s.view ∧ s2.firstValueReturned = s.firstValueReturned := by
  unfold makeNative at h
  rw [h0] at h
  simp only [Bool.false_eq_true, if_false, ite_false] at h
  split at h
  · exact absurd h (by simp)
  · rename_i e1 sb h1
    simp only [Except.ok.injEq, Prod.mk.injEq] at h
    obtain ⟨hE, hs⟩ := h
    obtain ⟨ha1, ha2, ha3, ha4⟩ := makeValuePropsNative_fields _ e1 sb h1
    rw [← hs]
    exact ⟨ha2, ha4, ha1, ha3⟩

theorem makeNative_idem (s : AState) (E : List Effect) (s2 : AState)
    (h : makeNative s = .ok (E, s2)) : makeNative s2 = .ok ([], s2) := by
  cases hn : s.isNative with
  | true =>
    rw [makeNative_already s hn] at h
    simp only [Except.ok.injEq, Prod.mk.injEq] at h
    obtain ⟨hE, hs⟩ := h
    rw [← hs]
    exact makeNative_already s hn
  | false =>
    exact makeNative_already s2 (makeNative_transition s E s2 hn h).1

/-! ### updateProps characterization -/

theorem updatePropsGo_nb_pres (ra : Bool) (lastProps : Bag) :
    ∀ (keys : List String) (s : AState) (nb : Bag) (lks : List String)
      (E : List Effect) (nb2 : Bag) (lks2 : List String) (s2 : AState),
    updatePropsGo ra lastProps s nb lks keys = .ok (E, nb2, lks2, s2) →
    ∀ k, k ∉ keys → bagLookup nb2 k = bagLookup nb k := by
  intro keys
  induction keys with
  | nil =>
    intro s nb lks E nb2 lks2 s2 h k hk
    unfold updatePropsGo at h
    simp only [Except.ok.injEq, Prod.mk.injEq] at h
    obtain ⟨hE, hnb, hlks, hs⟩ := h
    rw [← hnb]
  | cons key rest ih =>
    intro s nb lks E nb2 lks2 s2 h k hk
    have hkey : k ≠ key := fun hc => hk (hc ▸ List.mem_cons_self key rest)
    have hrest : k ∉ rest := fun hc => hk (List.mem_cons_of_mem key hc)
    unfold updatePropsGo at h
    split at h
    · split at h
      · exact absurd h (by simp)
      · rename_i r1 e1 v1 s1 h1
        split at h
        · exact absurd h (by simp)
        · rename_i r2 e2 nb3 lks3 s3 h2
          simp only [Except.ok.injEq, Prod.mk.injEq] at h
          obtain ⟨hE, hnb, hlks, hs⟩ := h
          rw [← hnb]
          rw [ih s1 (bagSet nb key v1) _ e2 nb3 lks3 s3 h2 k hrest]
          exact bagLookup_bagSet_ne nb key k v1 hkey
    · split at h
      · exact absurd h (by simp)
      · rename_i r2 e2 nb3 lks3 s3 h2
        simp only [Except.ok.injEq, Prod.mk.injEq] at h
        obtain ⟨hE, hnb, hlks, hs⟩ := h
        rw [← hnb]
        rw [ih s _ _ e2 nb3 lks3 s3 h2 k hrest]
        exact bagLookup_bagSet_ne nb key k _ hkey

theorem animatedDiff_eq_false_iff {a b : Option PropValue} :
    animatedDiff a b = false ↔ stripAttachedEvent a = stripAttachedEvent b := by
  simp [animatedDiff]

theorem stripAttachedEvent_some (v : PropValue) : ∃ u, stripAttachedEvent (some v) = some u := by
  cases v <;> simp [stripAttachedEvent]

theorem extendF_self (key : String) (e : List Effect) (f : String → List Effect) :
    extendF key e f key = e := by
  simp [extendF]

theorem extendF_ne {x key : String} (e : List Effect) (f : String → List Effect)
    (h : x ≠ key) : extendF key e f x = f x := by
  simp [extendF, h]

theorem updatePropsGo_spec (ra : Bool) (lastProps next0 : Bag) :
    ∀ (keys : List String) (s : AState) (nb : Bag) (lks : List String)
      (E : List Effect) (nb2 : Bag) (lks2 : List String) (s2 : AState),
    keys.Nodup →
    (∀ k ∈ keys, bagLookup nb k = bagLookup next0 k) →
    updatePropsGo ra lastProps s nb lks keys = .ok (E, nb2, lks2, s2) →
    (∃ f : String → List Effect,
      E = keys.flatMap f ∧
      ∀ k ∈ keys,
        ((ra || animatedDiff (bagLookup lastProps k) (bagLookup next0 k)) = false →
          f k = [] ∧ bagLookup nb2 k = bagLookup lastProps k) ∧
        ((ra || animatedDiff (bagLookup lastProps k) (bagLookup next0 k)) = true →
          ∃ sa v1 sb, replaceProp sa k (bagLookup lastProps k) (bagLookup next0 k) =
            .ok (f k, v1, sb))) ∧
    (∀ x, x ∈ lks2 ↔ (x ∈ lks ∧ x ∉ keys)) := by
  intro keys
  induction keys with
  | nil =>
    intro s nb lks E nb2 lks2 s2 hnodup hinv h
    unfold updatePropsGo at h
    simp only [Except.ok.injEq, Prod.mk.injEq] at h
    obtain ⟨hE, hnb, hlks, hs⟩ := h
    refine ⟨⟨fun _ => [], ?_, ?_⟩, ?_⟩
    · rw [← hE]; rfl
    · intro k hk; simp at hk
    · intro x; rw [← hlks]; simp
  | cons key rest ih =>
    intro s nb lks E nb2 lks2 s2 hnodup hinv h
    rw [List.nodup_cons] at hnodup
    obtain ⟨hkr, hndr⟩ := hnodup
    have hinvk : bagLookup nb key = bagLookup next0 key :=
      hinv key (List.mem_cons_self key rest)
    unfold updatePropsGo at h
    split at h
    · -- replace branch
      rename_i hc
      rw [hinvk] at hc
      split at h
      · exact absurd h (by simp)
      · rename_i e1 v1 s1 h1
        split at h
        · exact absurd h (by simp)
        · rename_i e2 nb3 lks3 s3 h2
          simp only [Except.ok.injEq, Prod.mk.injEq] at h
          obtain ⟨hE, hnb, hlks, hs⟩ := h
          have hinv2 : ∀ k ∈ rest, bagLookup (bagSet nb key v1) k = bagLookup next0 k := by
            intro k hk
            have hne : k ≠ key := fun hc2 => hkr (hc2 ▸ hk)
            rw [bagLookup_bagSet_ne nb key k v1 hne]
            exact hinv k (List.mem_cons_of_mem key hk)
          obtain ⟨⟨f0, hE0, hper0⟩, hlks0⟩ :=
            ih s1 (bagSet nb key v1) (lks.filter (fun k => !(k = key : Bool)))
              e2 nb3 lks3 s3 hndr hinv2 h2
          refine ⟨⟨extendF key e1 f0, ?_, ?_⟩, ?_⟩
          · rw [← hE, hE0]
            simp only [List.flatMap_cons, extendF_self]
            congr 1
            exact (flatMap_congr_mem rest _ _ (fun x hx =>
              extendF_ne e1 f0 (fun hc2 : x = key => hkr (hc2 ▸ hx)))).symm
          · intro k hk
            rcases List.mem_cons.mp hk with hk0 | hk0
            · subst hk0
              constructor
              · intro hff
                rw [hc] at hff
                exact absurd hff (by simp)
              · intro _
                rw [hinvk] at h1
                exact ⟨s, v1, s1, by rw [extendF_self]; exact h1⟩
            · have hne : k ≠ key := fun hc2 => hkr (hc2 ▸ hk0)
              rw [extendF_ne e1 f0 hne, ← hnb]
              exact hper0 k hk0
          · intro x
            rw [← hlks, hlks0 x]
            simp only [List.mem_filter, List.mem_cons]
            constructor
            · rintro ⟨⟨hx1, hx2⟩, hx3⟩
              simp only [Bool.not_eq_true', decide_eq_false_iff_not] at hx2
              exact ⟨hx1, fun hx4 => hx4.elim hx2 hx3⟩
            · rintro ⟨hx1, hx2⟩
              have hxk : ¬(x = key) := fun hc2 => hx2 (Or.inl hc2)
              exact ⟨⟨hx1, by simp [hxk]⟩, fun hx4 => hx2 (Or.inr hx4)⟩
    · -- carry-over branch
      rename_i hc
      rw [Bool.not_eq_true] at hc
      rw [hinvk] at hc
      split at h
      · exact absurd h (by simp)
      · rename_i e2 nb3 lks3 s3 h2
        simp only [Except.ok.injEq, Prod.mk.injEq] at h
        obtain ⟨hE, hnb, hlks, hs⟩ := h
        have hinv2 : ∀ k ∈ rest,
            bagLookup (bagSet nb key (bagLookup lastProps key)) k = bagLookup next0 k := by
          intro k hk
          have hne : k ≠ key := fun hc2 => hkr (hc2 ▸ hk)
          rw [bagLookup_bagSet_ne nb key k _ hne]
          exact hinv k (List.mem_cons_of_mem key hk)
        obtain ⟨⟨f0, hE0, hper0⟩, hlks0⟩ :=
          ih s (bagSet nb key (bagLookup lastProps key))
            (lks.filter (fun k => !(k = key : Bool))) e2 nb3 lks3 s3 hndr hinv2 h2
        have hdiff : animatedDiff (bagLookup lastProps key) (bagLookup next0 key) = false :=
          (Bool.or_eq_false_iff.mp hc).2
        have hstrip := animatedDiff_eq_false_iff.mp hdiff
        have hpres : bagLookup nb3 key =
            bagLookup (bagSet nb key (bagLookup lastProps key)) key :=
          updatePropsGo_nb_pres ra lastProps rest s _ _ e2 nb3 lks3 s3 h2 key hkr
        have hcarry : bagLookup nb3 key = bagLookup lastProps key := by
          cases hlast : bagLookup lastProps key with
          | none =>
            rw [hlast] at hstrip
            have hnext : bagLookup next0 key = none :=
              stripAttachedEvent_eq_none.mp hstrip.symm
            rw [hpres, hlast]
            show bagLookup nb key = none
            rw [hinvk, hnext]
          | some lv =>
            rw [hlast] at hstrip
            obtain ⟨u, hu⟩ := stripAttachedEvent_some lv
            cases hnext : bagLookup next0 key with
            | none =>
              rw [hnext] at hstrip
              rw [hu] at hstrip
              exact absurd hstrip (by simp [stripAttachedEvent])
            | some w =>
              have hnb2 : bagLookup nb key = some w := by rw [hinvk, hnext]
              rw [hpres, hlast]
              exact bagLookup_bagSet_self nb key lv w hnb2
        refine ⟨⟨extendF key [] f0, ?_, ?_⟩, ?_⟩
        · rw [← hE, hE0]
          simp only [List.flatMap_cons, extendF_self, List.nil_append]
          exact (flatMap_congr_mem rest _ _ (fun x hx =>
            extendF_ne [] f0 (fun hc2 : x = key => hkr (hc2 ▸ hx)))).symm
        · intro k hk
          rcases List.mem_cons.mp hk with hk0 | hk0
          · subst hk0
            constructor
            · intro _
              rw [extendF_self, ← hnb]
              exact ⟨rfl, hcarry⟩
            · intro htt
              rw [hc] at htt
              exact absurd htt (by simp)
          · have hne : k ≠ key := fun hc2 => hkr (hc2 ▸ hk0)
            rw [extendF_ne [] f0 hne, ← hnb]
            exact hper0 k hk0
        · intro x
          rw [← hlks, hlks0 x]
          simp only [List.mem_filter, List.mem_cons]
          constructor
          · rintro ⟨⟨hx1, hx2⟩, hx3⟩
            simp only [Bool.not_eq_true', decide_eq_false_iff_not] at hx2
            exact ⟨hx1, fun hx4 => hx4.elim hx2 hx3⟩
          · rintro ⟨hx1, hx2⟩
            have hxk : ¬(x = key) := fun hc2 => hx2 (Or.inl hc2)
            exact ⟨⟨hx1, by simp [hxk]⟩, fun hx4 => hx2 (Or.inr hx4)⟩

theorem updateProps_char (s : AState) (next : Bag) (E : List Effect) (s2 : AState)
    (hnodup : (animatedKeysF next).Nodup)
    (hok : updateProps s next = .ok (E, s2)) :
    ∃ f Ed,
      E = (animatedKeysF next).flatMap f ++ Ed ∧
      s2.reattachAll = false ∧
      (∀ k ∈ animatedKeysF next,
        ((s.reattachAll || animatedDiff (bagLookup s.props k) (bagLookup next k)) = false →
          f k = [] ∧ bagLookup s2.props k = bagLookup s.props k) ∧
        ((s.reattachAll || animatedDiff (bagLookup s.props k) (bagLookup next k)) = true →
          ∃ sa v1 sb, replaceProp sa k (bagLookup s.props k) (bagLookup next k) =
            .ok (f k, v1, sb))) ∧
      (∀ e ∈ Ed, (∃ n, e = Effect.removeChild n) ∨ (∃ vt kk, e = Effect.eventDetach vt kk)) ∧
      ((∀ k ∈ animatedKeysF s.props, k ∈ animatedKeysF next) → Ed = []) := by
  unfold updateProps at hok
  split at hok
  · exact absurd hok (by simp)
  · rename_i e1 nb lks s1 h1
    split at hok
    · exact absurd hok (by simp)
    · rename_i e2 sb h2
      simp only [Except.ok.injEq, Prod.mk.injEq] at hok
      obtain ⟨hE, hs⟩ := hok
      obtain ⟨⟨f0, hE0, hper0⟩, hlks0⟩ :=
        updatePropsGo_spec s.reattachAll s.props next (animatedKeysF next) s next
          (animatedKeysF s.props) e1 nb lks s1 hnodup (fun k _ => rfl) h1
      have hp2 : s2.props = nb := by rw [← hs]
      refine ⟨f0, e2, ?_, ?_, ?_, ?_, ?_⟩
      · rw [← hE, hE0]
      · rw [← hs]
      · intro k hk
        rw [hp2]
        exact hper0 k hk
      · intro e he
        exact detachPropsGo_effects s.props lks s1 e2 sb h2 e he
      · intro hsub
        have hlksnil : lks = [] := by
          rw [List.eq_nil_iff_forall_not_mem]
          intro x hx
          have hmem := (hlks0 x).mp hx
          exact hmem.2 (hsub x hmem.1)
        rw [hlksnil] at h2
        unfold detachPropsGo at h2
        simp only [Except.ok.injEq, Prod.mk.injEq] at h2
        exact h2.1.symm

/-! ### getValue lemmas -/

theorem resolveValueEntry_fst (s : AState) (k : String) (v : PropValue)
    (p : String × RVal) (h : resolveValueEntry s k v = .ok (some p)) : p.1 = k := by
  unfold resolveValueEntry at h
  split at h
  · split at h
    · exact absurd h (by simp)
    · simp only [Except.ok.injEq, Option.some.injEq] at h
      rw [← h]
  · split at h
    · split at h
      · exact absurd h (by simp)
      · simp only [Except.ok.injEq, Option.some.injEq] at h
        rw [← h]
    · simp only [Except.ok.injEq, Option.some.injEq] at h
      rw [← h]
    · simp only [Except.ok.injEq, Option.some.injEq] at h
      rw [← h]
    · simp only [Except.ok.injEq, Option.some.injEq] at h
      rw [← h]
    · simp only [Except.ok.injEq, Option.some.injEq] at h
      rw [← h]
    · simp only [Except.ok.injEq, Option.some.injEq] at h
      rw [← h]

theorem getValueGo_keys (s : AState) :
    ∀ (l : List (String × PropValue)) (res : List (String × RVal)),
    getValueGo s l = .ok res → ∀ p ∈ res, p.1 ∈ l.map Prod.fst := by
  intro l
  induction l with
  | nil =>
    intro res h p hp
    unfold getValueGo at h
    simp only [Except.ok.injEq] at h
    rw [← h] at hp
    simp at hp
  | cons q rest ih =>
    intro res h p hp
    unfold getValueGo at h
    split at h
    · exact absurd h (by simp)
    · rename_i o ho
      split at h
      · exact absurd h (by simp)
      · rename_i res0 hres0
        split at h
        · rename_i p0
          simp only [Except.ok.injEq] at h
          rw [← h] at hp
          rcases List.mem_cons.mp hp with hp1 | hp1
          · rw [hp1]
            rw [resolveValueEntry_fst s q.1 q.2 p0 ho]
            simp
          · exact List.mem_cons_of_mem _ (ih res0 hres0 p hp1)
        · simp only [Except.ok.injEq] at h
          rw [← h] at hp
          exact List.mem_cons_of_mem _ (ih res0 hres0 p hp)

theorem rlookup_eq_none (res : List (String × RVal)) (k : String)
    (h : ∀ p ∈ res, p.1 ≠ k) : rlookup res k = none := by
  induction res with
  | nil => rfl
  | cons p rest ih =>
    have hp := h p (List.mem_cons_self p rest)
    simp only [rlookup, hp, if_false, ite_false]
    exact ih (fun q hq => h q (List.mem_cons_of_mem p hq))

theorem getValueGo_lookup (s : AState) :
    ∀ (l : List (String × PropValue)) (res : List (String × RVal)),
    (l.map Prod.fst).Nodup →
    getValueGo s l = .ok res →
    ∀ k v, (k, v) ∈ l →
      (resolveValueEntry s k v = .ok none → rlookup res k = none) ∧
      (∀ r, resolveValueEntry s k v = .ok (some (k, r)) → rlookup res k = some r) := by
  intro l
  induction l with
  | nil => intro res hnd h k v hm; simp at hm
  | cons q rest ih =>
    intro res hnd h k v hm
    simp only [List.map_cons, List.nodup_cons] at hnd
    obtain ⟨hq, hndr⟩ := hnd
    unfold getValueGo at h
    split at h
    · exact absurd h (by simp)
    · rename_i o ho
      split at h
      · exact absurd h (by simp)
      · rename_i res0 hres0
        split at h
        · rename_i p0
          simp only [Except.ok.injEq] at h
          subst h
          have hp0q : p0.1 = q.1 := resolveValueEntry_fst s q.1 q.2 p0 ho
          rcases List.mem_cons.mp hm with hm1 | hm1
          · have hk : k = q.1 := by rw [← hm1]
            have hv : v = q.2 := by rw [← hm1]
            constructor
            · intro hnone
              rw [hk, hv] at hnone
              rw [hnone] at ho
              exact absurd ho (by simp)
            · intro r hsome
              rw [hk, hv] at hsome
              rw [hsome] at ho
              simp only [Except.ok.injEq, Option.some.injEq] at ho
              rw [← ho, hk]
              simp [rlookup]
          · have hkq : ¬(k = q.1) := fun hc =>
              hq (hc ▸ List.mem_map.mpr ⟨(k, v), hm1, rfl⟩)
            have hne : ¬(p0.1 = k) := fun hc => hkq (by rw [← hc]; exact hp0q)
            have htail := ih res0 hndr hres0 k v hm1
            constructor
            · intro hnone
              simp only [rlookup, if_neg hne]
              exact htail.1 hnone
            · intro r hsome
              simp only [rlookup, if_neg hne]
              exact htail.2 r hsome
        · simp only [Except.ok.injEq] at h
          subst h
          rcases List.mem_cons.mp hm with hm1 | hm1
          · have hk : k = q.1 := by rw [← hm1]
            have hv : v = q.2 := by rw [← hm1]
            have hknotr : ∀ p ∈ res0, p.1 ≠ k := fun p hp hkp =>
              hq (by
                rw [hk] at hkp
                rw [← hkp]
                exact getValueGo_keys s rest res0 hres0 p hp)
            constructor
            · intro _
              exact rlookup_eq_none res0 k hknotr
            · intro r hsome
              rw [hk, hv] at hsome
              rw [hsome] at ho
              exact absurd ho (by simp)
          · exact ih res0 hndr hres0 k v hm1

theorem getValueGo_ok (s : AState) :
    ∀ (l : List (String × PropValue)),
    (("style" ∈ l.map Prod.fst) → s.styleProp.isSome = true) →
    ∃ res, getValueGo s l = .ok res := by
  intro l
  induction l with
  | nil => intro _; exact ⟨[], rfl⟩
  | cons q rest ih =>
    intro hsty
    obtain ⟨res0, hres0⟩ := ih (fun hm => hsty (by simp [hm]))
    by_cases hq : q.1 = "style"
    · have hsp : s.styleProp.isSome = true := hsty (by simp [hq])
      cases hc : s.styleProp with
      | none => rw [hc] at hsp; simp at hsp
      | some c =>
        refine ⟨(q.1, .styleR (resolveStyle c.src)) :: res0, ?_⟩
        unfold getValueGo
        rw [show resolveValueEntry s q.1 q.2 = .ok (some (q.1, .styleR (resolveStyle c.src))) by
          unfold resolveValueEntry
          rw [if_pos hq, hc]]
        rw [hres0]
    · have hre : ∃ o, resolveValueEntry s q.1 q.2 = .ok o := by
        unfold resolveValueEntry
        rw [if_neg hq]
        cases q.2 with
        | plain v => exact ⟨_, rfl⟩
        | plainB b => exact ⟨_, rfl⟩
        | node id isNat val =>
          cases isNat with
          | true => exact ⟨_, rfl⟩
          | false => exact ⟨_, rfl⟩
        | styleObj es => exact ⟨_, rfl⟩
        | styleNode id isNat es => exact ⟨_, rfl⟩
        | event nm isNat att => exact ⟨_, rfl⟩
      obtain ⟨o, ho⟩ := hre
      cases o with
      | some p =>
        refine ⟨p :: res0, ?_⟩
        unfold getValueGo
        rw [ho, hres0]
      | none =>
        refine ⟨res0, ?_⟩
        unfold getValueGo
        rw [ho, hres0]

theorem getValueGo_style_error (s : AState) (hsp : s.styleProp = none) :
    ∀ (l : List (String × PropValue)) (v : PropValue), ("style", v) ∈ l →
    ∃ msg, getValueGo s l = .error msg := by
  intro l
  induction l with
  | nil => intro v hm; simp at hm
  | cons q rest ih =>
    intro v hm
    rcases List.mem_cons.mp hm with hm1 | hm1
    · refine ⟨"Expected style prop", ?_⟩
      unfold getValueGo
      rw [show resolveValueEntry s q.1 q.2 = .error "Expected style prop" by
        unfold resolveValueEntry
        rw [if_pos (by rw [← hm1]), hsp]]
    · cases ho : resolveValueEntry s q.1 q.2 with
      | error msg =>
        refine ⟨msg, ?_⟩
        unfold getValueGo
        rw [ho]
      | ok o =>
        obtain ⟨msg, hmsg⟩ := ih v hm1
        refine ⟨msg, ?_⟩
        unfold getValueGo
        rw [ho, hmsg]

/-! ### Event-prop and constructor-attach lemmas -/

theorem detachEventPropsF_shape (s : AState) (ot : Nat) (hv : s.view = some ot) :
    ∀ e ∈ detachEventPropsF s, ∃ k, e = Effect.eventDetach ot k := by
  intro e he
  unfold detachEventPropsF at he
  rw [List.mem_flatMap] at he
  obtain ⟨p, hp, he2⟩ := he
  unfold detachEventProp at he2
  rw [hv] at he2
  split at he2
  · rename_i vt nm att heqv heqp
    simp only [List.mem_singleton] at he2
    injection heqv with heqv
    exact ⟨p.1, by rw [he2, ← heqv]⟩
  · simp at he2

theorem attachEventPropsF_shape (s : AState) (nt : Nat) (hv : s.view = some nt) :
    ∀ e ∈ attachEventPropsF s, ∃ k, e = Effect.eventAttach nt k := by
  intro e he
  unfold attachEventPropsF at he
  rw [List.mem_flatMap] at he
  obtain ⟨p, hp, he2⟩ := he
  unfold attachEventProp at he2
  rw [hv] at he2
  split at he2
  · rename_i vt nm att heqv heqp
    simp only [List.mem_singleton] at he2
    injection heqv with heqv
    exact ⟨p.1, by rw [he2, ← heqv]⟩
  · simp at he2

theorem detachEventPropsF_shape_any (s : AState) :
    ∀ e ∈ detachEventPropsF s, ∃ vt k, e = Effect.eventDetach vt k := by
  intro e he
  unfold detachEventPropsF at he
  rw [List.mem_flatMap] at he
  obtain ⟨p, hp, he2⟩ := he
  exact detachEventProp_effects s p.1 (some p.2) e he2

theorem attachEventPropsF_shape_any (s : AState) :
    ∀ e ∈ attachEventPropsF s, ∃ vt k, e = Effect.eventAttach vt k := by
  intro e he
  unfold attachEventPropsF at he
  rw [List.mem_flatMap] at he
  obtain ⟨p, hp, he2⟩ := he
  exact attachEventProp_effects s p.1 (some p.2) e he2

theorem eventPropsF_none (s : AState) (hv : s.view = none) :
    detachEventPropsF s = [] ∧ attachEventPropsF s = [] := by
  constructor
  · rw [List.eq_nil_iff_forall_not_mem]
    intro e he
    unfold detachEventPropsF at he
    rw [List.mem_flatMap] at he
    obtain ⟨p, hp, he2⟩ := he
    unfold detachEventProp at he2
    rw [hv] at he2
    split at he2
    · rename_i vt nm att heqv heqp
      exact absurd heqv (by simp)
    · simp at he2
  · rw [List.eq_nil_iff_forall_not_mem]
    intro e he
    unfold attachEventPropsF at he
    rw [List.mem_flatMap] at he
    obtain ⟨p, hp, he2⟩ := he
    unfold attachEventProp at he2
    rw [hv] at he2
    split at he2
    · rename_i vt nm att heqv heqp
      exact absurd heqv (by simp)
    · simp at he2

theorem disconnectViewEffs_shape (s : AState) :
    ∀ e ∈ disconnectViewEffs s, ∃ vt, e = Effect.disconnectView vt := by
  unfold disconnectViewEffs
  intro e he
  split at he
  · split at he
    · simp only [List.mem_singleton] at he
      exact ⟨_, he⟩
    · simp at he
  · simp at he

theorem attachValuePropsGo_effects :
    ∀ (l : List (String × PropValue)) (s : AState) (E : List Effect) (s1 : AState),
    attachValuePropsGo s l = .ok (E, s1) → ∀ e ∈ E, ∃ n, e = Effect.addChild n := by
  intro l
  induction l with
  | nil =>
    intro s E s1 h e he
    unfold attachValuePropsGo at h
    simp only [Except.ok.injEq, Prod.mk.injEq] at h
    rw [← h.1] at he
    simp at he
  | cons p rest ih =>
    intro s E s1 h e he
    unfold attachValuePropsGo at h
    split at h
    · exact absurd h (by simp)
    · rename_i e1 sa h1
      split at h
      · exact absurd h (by simp)
      · rename_i e2 sb h2
        simp only [Except.ok.injEq, Prod.mk.injEq] at h
        rw [← h.1] at he
        rcases List.mem_append.mp he with he1 | he1
        · exact attachValueProp_effects s p.1 (some p.2) e1 sa h1 e he1
        · exact ih sa e2 sb h2 e he1

theorem detachValuePropsGo_effects :
    ∀ (l : List (String × PropValue)) (s : AState) (E : List Effect) (s1 : AState),
    detachValuePropsGo s l = .ok (E, s1) → ∀ e ∈ E, ∃ n, e = Effect.removeChild n := by
  intro l
  induction l with
  | nil =>
    intro s E s1 h e he
    unfold detachValuePropsGo at h
    simp only [Except.ok.injEq, Prod.mk.injEq] at h
    rw [← h.1] at he
    simp at he
  | cons p rest ih =>
    intro s E s1 h e he
    unfold detachValuePropsGo at h
    split at h
    · exact absurd h (by simp)
    · rename_i e1 sa h1
      split at h
      · exact absurd h (by simp)
      · rename_i e2 sb h2
        simp only [Except.ok.injEq, Prod.mk.injEq] at h
        rw [← h.1] at he
        rcases List.mem_append.mp he with he1 | he1
        · exact detachValueProp_effects s p.1 (some p.2) e1 sa h1 e he1
        · exact ih sa e2 sb h2 e he1

theorem detachAnimated_effects (s : AState) (E : List Effect) (s1 : AState)
    (h : detachAnimated s = .ok (E, s1)) : ∀ e ∈ E, detachShaped e := by
  unfold detachAnimated at h
  split at h
  · exact absurd h (by simp)
  · rename_i e2 s2 h2
    simp only [Except.ok.injEq, Prod.mk.injEq] at h
    intro e he
    rw [← h.1] at he
    rcases List.mem_append.mp he with he1 | he1
    · rcases List.mem_append.mp he1 with he2 | he2
      · obtain ⟨vt, hvt⟩ := disconnectViewEffs_shape s e he2
        exact Or.inr (Or.inr ⟨vt, hvt⟩)
      · obtain ⟨vt, k, hk⟩ := detachEventPropsF_shape_any s e he2
        exact Or.inr (Or.inl ⟨vt, k, hk⟩)
    · obtain ⟨n, hn⟩ := detachValuePropsGo_effects s.props s e2 s2 h2 e he1
      exact Or.inl ⟨n, hn⟩

theorem newAnimatedProps_effects (bag : Bag) (E : List Effect) (s1 : AState)
    (h : newAnimatedProps bag = .ok (E, s1)) : ∀ e ∈ E, attachShaped e := by
  unfold newAnimatedProps at h
  split at h
  · exact absurd h (by simp)
  · rename_i e1 sa h1
    simp only [Except.ok.injEq, Prod.mk.injEq] at h
    intro e he
    rw [← h.1] at he
    rcases List.mem_append.mp he with he1 | he1
    · obtain ⟨n, hn⟩ := attachValuePropsGo_effects bag (initialAState bag) e1 sa h1 e he1
      exact Or.inl ⟨n, hn⟩
    · obtain ⟨vt, k, hk⟩ := attachEventPropsF_shape_any sa e he1
      exact Or.inr (Or.inr ⟨vt, k, hk⟩)

theorem attachValueProp_mark (s : AState) (k : String) (v : PropValue)
    (E : List Effect) (s1 : AState) (h : attachValueProp s k (some v) = .ok (E, s1)) :
    ((k = "style" ∧ isAnimatedStyleV v = false) →
      ∃ cid, Effect.addChild (NodeId.comp cid) ∈ E) ∧
    (¬(k = "style" ∧ isAnimatedStyleV v = false) →
      ∀ nid, nodeIdOf v = some nid → Effect.addChild nid ∈ E) := by
  unfold attachValueProp at h
  split at h
  · rename_i hcond
    split at h
    · exact absurd h (by simp)
    · simp only [Except.ok.injEq, Prod.mk.injEq] at h
      obtain ⟨hE, hs⟩ := h
      constructor
      · intro _
        exact ⟨s.nextCompId, by rw [← hE]; simp⟩
      · intro hnc
        exfalso
        apply hnc
        simp only [Bool.and_eq_true, decide_eq_true_eq, Bool.not_eq_true'] at hcond
        exact ⟨hcond.1, by simpa [isAnimatedStyleOpt] using hcond.2⟩
  · rename_i hcond
    constructor
    · intro hyes
      exfalso
      apply hcond
      simp only [Bool.and_eq_true, decide_eq_true_eq, Bool.not_eq_true']
      exact ⟨hyes.1, by simpa [isAnimatedStyleOpt] using hyes.2⟩
    · intro _ nid hnid
      rw [show (some v).bind nodeIdOf = nodeIdOf v from rfl, hnid] at h
      simp only [Except.ok.injEq, Prod.mk.injEq] at h
      rw [← h.1]
      simp

theorem attachValuePropsGo_marks :
    ∀ (l : List (String × PropValue)) (s : AState) (E : List Effect) (s1 : AState),
    attachValuePropsGo s l = .ok (E, s1) →
    ∀ k v, (k, v) ∈ l →
      ((k = "style" ∧ isAnimatedStyleV v = false) →
        ∃ cid, Effect.addChild (NodeId.comp cid) ∈ E) ∧
      (¬(k = "style" ∧ isAnimatedStyleV v = false) →
        ∀ nid, nodeIdOf v = some nid → Effect.addChild nid ∈ E) := by
  intro l
  induction l with
  | nil => intro s E s1 h k v hm; simp at hm
  | cons p rest ih =>
    intro s E s1 h k v hm
    unfold attachValuePropsGo at h
    split at h
    · exact absurd h (by simp)
    · rename_i e1 sa h1
      split at h
      · exact absurd h (by simp)
      · rename_i e2 sb h2
        simp only [Except.ok.injEq, Prod.mk.injEq] at h
        obtain ⟨hE, hs⟩ := h
        rcases List.mem_cons.mp hm with hm1 | hm1
        · have hk : k = p.1 := by rw [← hm1]
          have hv : v = p.2 := by rw [← hm1]
          rw [hk, hv]
          have hmark := attachValueProp_mark s p.1 p.2 e1 sa h1
          constructor
          · intro hyes
            obtain ⟨cid, hcid⟩ := hmark.1 hyes
            exact ⟨cid, by rw [← hE]; exact List.mem_append_left e2 hcid⟩
          · intro hnc nid hnid
            rw [← hE]
            exact List.mem_append_left e2 (hmark.2 hnc nid hnid)
        · have htail := ih sa e2 sb h2 k v hm1
          constructor
          · intro hyes
            obtain ⟨cid, hcid⟩ := htail.1 hyes
            exact ⟨cid, by rw [← hE]; exact List.mem_append_right e1 hcid⟩
          · intro hnc nid hnid
            rw [← hE]
            exact List.mem_append_right e1 (htail.2 hnc nid hnid)

theorem newAnimatedProps_marks (bag : Bag) (E : List Effect) (s1 : AState)
    (h : newAnimatedProps bag = .ok (E, s1)) :
    ∀ k v, (k, v) ∈ bag →
      ((k = "style" ∧ isAnimatedStyleV v = false) →
        ∃ cid, Effect.addChild (NodeId.comp cid) ∈ E) ∧
      (¬(k = "style" ∧ isAnimatedStyleV v = false) →
        ∀ nid, nodeIdOf v = some nid → Effect.addChild nid ∈ E) := by
  unfold newAnimatedProps at h
  split at h
  · exact absurd h (by simp)
  · rename_i e1 sa h1
    simp only [Except.ok.injEq, Prod.mk.injEq] at h
    intro k v hm
    have hmark := attachValuePropsGo_marks bag (initialAState bag) e1 sa h1 k v hm
    constructor
    · intro hyes
      obtain ⟨cid, hcid⟩ := hmark.1 hyes
      exact ⟨cid, by rw [← h.1]; exact List.mem_append_left _ hcid⟩
    · intro hnc nid hnid
      rw [← h.1]
      exact List.mem_append_left _ (hmark.2 hnc nid hnid)

theorem getValue_state (s : AState) (res : List (String × RVal)) (s1 : AState)
    (h : getValue s = .ok (res, s1)) : s1 = { s with firstValueReturned := true } := by
  unfold getValue at h
  split at h
  · exact absurd h (by simp)
  · simp only [Except.ok.injEq, Prod.mk.injEq] at h
    exact h.2.symm

theorem bagLookup_isSome_of_mem_keys :
    ∀ (bag : Bag) (k : String), k ∈ bag.map Prod.fst → ∃ w, bagLookup bag k = some w := by
  intro bag
  induction bag with
  | nil => intro k h; simp at h
  | cons p rest ih =>
    intro k h
    by_cases hp : p.1 = k
    · exact ⟨p.2, by simp [bagLookup, hp]⟩
    · simp only [List.map_cons, List.mem_cons] at h
      rcases h with h | h
      · exact absurd h.symm hp
      · obtain ⟨w, hw⟩ := ih k h
        exact ⟨w, by simp [bagLookup, hp, hw]⟩

theorem animatedKeysF_sub_keys (bag : Bag) (k : String) (h : k ∈ animatedKeysF bag) :
    k ∈ bag.map Prod.fst := by
  unfold animatedKeysF at h
  exact (List.mem_filter.mp h).1

theorem attachPropsV1_rebuild (cur : Bag) (old : AState) (force : Bool) (next : Bag)
    (E : List Effect) (fresh : AState)
    (hch : changedTruthy (animatedValuePropsChangedF cur next) = true)
    (hok : attachPropsV1 cur (some old) force next = .ok (E, fresh)) :
    ∃ eNew eOld oldS, newAnimatedProps next = .ok (eNew, fresh) ∧
      detachAnimated old = .ok (eOld, oldS) ∧ E = eNew ++ eOld := by
  unfold attachPropsV1 at hok
  rw [hch] at hok
  simp only [Bool.or_true, if_true, ite_true] at hok
  split at hok
  · exact absurd hok (by simp)
  · rename_i e1 fr h1
    split at hok
    · exact absurd hok (by simp)
    · rename_i e2 oldS h2
      simp only [Except.ok.injEq, Prod.mk.injEq] at hok
      refine ⟨e1, e2, oldS, ?_, h2, hok.1.symm⟩
      rw [← hok.2]
      exact h1

/-- Per-key replacement decomposition: replaceProp emits its attach effects
before its detach effects. -/
theorem replaceProp_attach_before_detach (s : AState) (k : String)
    (lv nv : Option PropValue) (E : List Effect) (v1 : Option PropValue) (s1 : AState)
    (h : replaceProp s k lv nv = .ok (E, v1, s1)) :
    ∃ ea ed, E = ea ++ ed ∧ (∀ e ∈ ea, attachShaped e) ∧
      (∀ e ∈ ed, (∃ n, e = Effect.removeChild n) ∨
        (∃ vt kk, e = Effect.eventDetach vt kk)) := by
  unfold replaceProp at h
  split at h
  · split at h
    · exact absurd h (by simp)
    · rename_i oldC hold
      split at h
      · exact absurd h (by simp)
      · rename_i e1 va sa h1
        simp only [Except.ok.injEq, Prod.mk.injEq] at h
        refine ⟨e1, [Effect.removeChild (NodeId.comp oldC.cid)], by rw [← h.1], ?_, ?_⟩
        · exact attachProp_effects _ k nv e1 va sa h1
        · intro e he
          simp only [List.mem_singleton] at he
          exact Or.inl ⟨_, he⟩
  · split at h
    · exact absurd h (by simp)
    · rename_i e1 va sa h1
      split at h
      · exact absurd h (by simp)
      · rename_i e2 sb h2
        simp only [Except.ok.injEq, Prod.mk.injEq] at h
        exact ⟨e1, e2, by rw [← h.1], attachProp_effects s k nv e1 va sa h1,
          detachProp_effects sa k lv e2 sb h2⟩

/-! ### Claim theorems -/

/-- C1: when the change callback fires with a concrete view bound and the
property set not in native mode, both createAnimatedComponent generations
invoke exactly one of direct mutation (setNativeProps with the freshly
computed animated-only bag) and forced re-render — never both, never neither —
and the choice depends solely on whether the component exposes setNativeProps
together with the test-only skip flag. -/
theorem claim_C1_callback_exclusive_choice (hasSNP skip : Bool) (s : AState)
    (bag : List (String × RVal))
    (hnat : s.isNative = false) (hbag : getAnimatedValue s = .ok bag) :
    (∃ effs, animatedPropsCallbackV1 true hasSNP skip s = .ok effs ∧
      countMutations effs + countForceUpdates effs = 1 ∧
      (effs = [CbEffect.forceUpdate] ↔ (skip = true ∨ hasSNP = false)) ∧
      (effs = [CbEffect.setNativePropsCall bag] ↔ (skip = false ∧ hasSNP = true))) ∧
    (∃ effs, animatedPropsCallbackV2 true hasSNP s = .ok effs ∧
      countMutations effs + countForceUpdates effs = 1 ∧
      (effs = [CbEffect.forceUpdate] ↔ hasSNP = false) ∧
      (effs = [CbEffect.setNativePropsCall bag] ↔ hasSNP = true)) := by
  constructor
  · cases skip with
    | true =>
      refine ⟨[CbEffect.forceUpdate], ?_, by simp [countMutations, countForceUpdates],
        by simp, by simp⟩
      unfold animatedPropsCallbackV1
      simp
    | false =>
      cases hasSNP with
      | true =>
        refine ⟨[CbEffect.setNativePropsCall bag], ?_,
          by simp [countMutations, countForceUpdates], by simp, by simp⟩
        unfold animatedPropsCallbackV1
        simp [hnat, hbag]
      | false =>
        refine ⟨[CbEffect.forceUpdate], ?_, by simp [countMutations, countForceUpdates],
          by simp, by simp⟩
        unfold animatedPropsCallbackV1
        simp
  · cases hasSNP with
    | true =>
      refine ⟨[CbEffect.setNativePropsCall bag], ?_,
        by simp [countMutations, countForceUpdates], by simp, by simp⟩
      unfold animatedPropsCallbackV2
      simp [hnat, hbag]
    | false =>
      refine ⟨[CbEffect.forceUpdate], ?_, by simp [countMutations, countForceUpdates],
        by simp, by simp⟩
      unfold animatedPropsCallbackV2
      simp

/-- C1 witness: the callbacks on a concrete non-native state bound to a view. -/
theorem claim_C1_witness :
    sPlainW.isNative = false ∧ getAnimatedValue sPlainW = .ok [("op", RVal.num 5)] ∧
    animatedPropsCallbackV1 true true false sPlainW =
      .ok [CbEffect.setNativePropsCall [("op", RVal.num 5)]] := by
  refine ⟨by decide, by decide, ?_⟩
  obtain ⟨effs, heffs, _, _, hiff⟩ :=
    (claim_C1_callback_exclusive_choice true false sPlainW [("op", RVal.num 5)]
      (by decide) (by decide)).1
  rw [heffs, hiff.mpr ⟨rfl, rfl⟩]

/-- C2 counterexample: in the first createAnimatedComponent, with the
test-only skip flag enabled, the callback firing in native mode on a view
exposing setNativeProps re-renders instead of throwing. -/
theorem claim_C2_counterexample :
    sNativeW.isNative = true ∧
    animatedPropsCallbackV1 true true true sNativeW = .ok [CbEffect.forceUpdate] := by
  exact ⟨rfl, by decide⟩

/-- C2 (amended): when the change callback fires in native mode with a view
bound that exposes setNativeProps and the test-only skip flag clear, both
generations throw the unrecoverable native-mode error, emitting no mutation
and no re-render. -/
theorem claim_C2_native_callback_throws (hasSNP skip : Bool) (s : AState)
    (hnat : s.isNative = true) (hsnp : hasSNP = true) (hskip : skip = false) :
    animatedPropsCallbackV1 true hasSNP skip s = .error nativeModeErrMsg ∧
    animatedPropsCallbackV2 true hasSNP s = .error nativeModeErrMsg := by
  subst hsnp hskip
  constructor
  · unfold animatedPropsCallbackV1
    simp [hnat]
  · unfold animatedPropsCallbackV2
    simp [hnat]

/-- C2 witness: the amended theorem at the concrete native state. -/
theorem claim_C2_witness :
    sNativeW.isNative = true ∧
    animatedPropsCallbackV1 true true false sNativeW = .error nativeModeErrMsg :=
  ⟨rfl, (claim_C2_native_callback_throws true false sNativeW rfl rfl rfl).1⟩

/-- C9: updateView is a strict no-op (no state change, no effects) when the
next view is reference-identical to the bound one; otherwise it detaches
events from the old view, disconnects the old view (only when native),
rebinds, reconnects the new view (only when native) and reattaches events to
the new view, in that order. -/
theorem claim_C9_updateView_rebind (s : AState) (v : Option Nat) :
    (s.view = v → updateView s v = ([], s)) ∧
    (s.view ≠ v →
      updateView s v =
        (detachEventPropsF s ++ disconnectViewEffs s ++
          connectViewEffs { s with view := v } ++ attachEventPropsF { s with view := v },
         { s with view := v }) ∧
      (∀ ot, s.view = some ot →
        (∀ e ∈ detachEventPropsF s, ∃ k, e = Effect.eventDetach ot k) ∧
        disconnectViewEffs s = (if s.isNative then [Effect.disconnectView ot] else [])) ∧
      (s.view = none → detachEventPropsF s = [] ∧ disconnectViewEffs s = []) ∧
      (∀ nt, v = some nt →
        (∀ e ∈ attachEventPropsF { s with view := v }, ∃ k, e = Effect.eventAttach nt k) ∧
        connectViewEffs { s with view := v } =
          (if s.isNative then [Effect.connectView nt] else [])) ∧
      (v = none → attachEventPropsF { s with view := v } = [] ∧
        connectViewEffs { s with view := v } = [])) := by
  constructor
  · intro hv
    unfold updateView
    rw [if_pos hv]
  · intro hne
    refine ⟨?_, ?_, ?_, ?_, ?_⟩
    · unfold updateView
      rw [if_neg hne]
    · intro ot hot
      refine ⟨detachEventPropsF_shape s ot hot, ?_⟩
      unfold disconnectViewEffs
      rw [hot]
    · intro hnone
      refine ⟨(eventPropsF_none s hnone).1, ?_⟩
      unfold disconnectViewEffs
      rw [hnone]
    · intro nt hnt
      have hview : ({ s with view := v } : AState).view = some nt := by
        rw [hnt]
      refine ⟨attachEventPropsF_shape { s with view := v } nt hview, ?_⟩
      unfold connectViewEffs
      rw [hview]
    · intro hnone
      have hview : ({ s with view := v } : AState).view = none := by
        rw [hnone]
      obtain ⟨h1, h2⟩ := eventPropsF_none { s with view := v } hview
      refine ⟨h2, ?_⟩
      unfold connectViewEffs
      rw [hview]

/-- C9 witness: rebinding the concrete native state from view 9 to itself is a
no-op, and to view 10 disconnects 9 and connects 10. -/
theorem claim_C9_witness :
    sNativeW.view = some 9 ∧
    updateView sNativeW (some 9) = ([], sNativeW) ∧
    updateView sNativeW (some 10) =
      ([Effect.disconnectView 9, Effect.connectView 10], { sNativeW with view := some 10 }) := by
  refine ⟨rfl, (claim_C9_updateView_rebind sNativeW (some 9)).1 rfl, ?_⟩
  have h := ((claim_C9_updateView_rebind sNativeW (some 10)).2 (by decide)).1
  rw [h]
  decide

/-- C10: the collapsable prop handed to the wrapped component by render is
forced to false whenever the AnimatedProps instance is native, overriding any
caller-supplied value; when not native the caller-supplied collapsable value
passes through __getValue unchanged. -/
theorem claim_C10_collapsable_forced (s : AState) :
    (s.isNative = true → ∀ res s1, getValue s = .ok (res, s1) →
      renderCollapsable s = .ok (some (RVal.boolV false))) ∧
    (s.isNative = false → (s.props.map Prod.fst).Nodup →
      (("style" ∈ s.props.map Prod.fst) → s.styleProp.isSome = true) →
      ∀ b, ("collapsable", PropValue.plainB b) ∈ s.props →
      renderCollapsable s = .ok (some (RVal.boolV b))) := by
  constructor
  · intro hn res s1 hok
    unfold renderCollapsable
    rw [hok, hn]
    simp
  · intro hn hnodup hsty b hmem
    have hsty1 : ("style" ∈ s.props.map Prod.fst) →
        ({ s with firstValueReturned := true } : AState).styleProp.isSome = true := hsty
    obtain ⟨res, hres⟩ := getValueGo_ok { s with firstValueReturned := true } s.props hsty1
    have hgv : getValue s = .ok (res, { s with firstValueReturned := true }) := by
      unfold getValue
      rw [hres]
    unfold renderCollapsable
    rw [hgv, hn]
    simp only [Bool.false_eq_true, if_false, ite_false, Except.ok.injEq]
    have hl := getValueGo_lookup { s with firstValueReturned := true } s.props res hnodup hres
      "collapsable" (PropValue.plainB b) hmem
    exact hl.2 (RVal.boolV b) (by
      unfold resolveValueEntry
      rw [if_neg (by decide)])

/-- C10 witness: the concrete state passes collapsable through when not
native; switching the same state to native forces false. -/
theorem claim_C10_witness :
    ("collapsable", PropValue.plainB true) ∈ c10s.props ∧
    renderCollapsable c10s = .ok (some (RVal.boolV true)) ∧
    renderCollapsable { c10s with isNative := true } = .ok (some (RVal.boolV false)) := by
  refine ⟨by decide, ?_, ?_⟩
  · exact (claim_C10_collapsable_forced c10s).2 rfl (by decide) (by decide) true (by decide)
  · exact (claim_C10_collapsable_forced { c10s with isNative := true }).1 rfl
      [("collapsable", RVal.boolV true), ("op", RVal.num 5)]
      { c10s with isNative := true, firstValueReturned := true } (by decide)

/-- C3: makeNative returns immediately (unchanged state, no effects) when
already native and is idempotent after any successful call; and when a
getValue snapshot was returned before a non-native instance is switched to
native, the switch sets the reattach-all flag, the immediately following
updateProps replaces every animated key of the next bag regardless of per-key
equality, and that updateProps call clears the flag at its end. -/
theorem claim_C3_makeNative_idempotent_reattachAll :
    (∀ s : AState, s.isNative = true → makeNative s = .ok ([], s)) ∧
    (∀ (s : AState) (E : List Effect) (s2 : AState),
      makeNative s = .ok (E, s2) → makeNative s2 = .ok ([], s2)) ∧
    (∀ (s : AState) (gv : List (String × RVal)) (s1 : AState) (E1 : List Effect)
       (s2 : AState) (next : Bag) (E2 : List Effect) (s3 : AState),
      s.isNative = false →
      getValue s = .ok (gv, s1) →
      makeNative s1 = .ok (E1, s2) →
      (animatedKeysF next).Nodup →
      updateProps s2 next = .ok (E2, s3) →
      s2.reattachAll = true ∧
      (∃ f Ed, E2 = (animatedKeysF next).flatMap f ++ Ed ∧
        ∀ k ∈ animatedKeysF next, ∃ sa v1 sb,
          replaceProp sa k (bagLookup s2.props k) (bagLookup next k) = .ok (f k, v1, sb)) ∧
      s3.reattachAll = false) := by
  refine ⟨makeNative_already, makeNative_idem, ?_⟩
  intro s gv s1 E1 s2 next E2 s3 hnat hgv hmn hnodup hup
  have hs1 := getValue_state s gv s1 hgv
  have hs1nat : s1.isNative = false := by rw [hs1]; exact hnat
  have hs1f : s1.firstValueReturned = true := by rw [hs1]
  have htr := makeNative_transition s1 E1 s2 hs1nat hmn
  have hra : s2.reattachAll = true := by
    rw [htr.2.1, hs1f]
    simp
  obtain ⟨f, Ed, hE, hs3ra, hper, hEd, hEdnil⟩ := updateProps_char s2 next E2 s3 hnodup hup
  refine ⟨hra, ⟨f, Ed, hE, ?_⟩, hs3ra⟩
  intro k hk
  exact (hper k hk).2 (by simp [hra])

/-- C3 witness: the concrete getValue, makeNative, updateProps chain, with the
flag observed set after the switch and cleared after the update. -/
theorem claim_C3_witness :
    getValue c3s0 = .ok ([("op", RVal.num 5)], c3s1) ∧
    makeNative c3s1 = .ok ([Effect.makeNodeNative (NodeId.rawNode 1)], c3s2) ∧
    updateProps c3s2 c3next =
      .ok ([Effect.addChild (NodeId.rawNode 2), Effect.makeNodeNative (NodeId.rawNode 2),
            Effect.removeChild (NodeId.rawNode 1)], c3s3) ∧
    c3s2.reattachAll = true ∧ c3s3.reattachAll = false := by
  refine ⟨by decide, by decide, by decide, ?_, ?_⟩
  · exact (claim_C3_makeNative_idempotent_reattachAll.2.2 c3s0 [("op", RVal.num 5)] c3s1
      [Effect.makeNodeNative (NodeId.rawNode 1)] c3s2 c3next
      [Effect.addChild (NodeId.rawNode 2), Effect.makeNodeNative (NodeId.rawNode 2),
       Effect.removeChild (NodeId.rawNode 1)] c3s3
      (by decide) (by decide) (by decide) (by decide) (by decide)).1
  · exact (claim_C3_makeNative_idempotent_reattachAll.2.2 c3s0 [("op", RVal.num 5)] c3s1
      [Effect.makeNodeNative (NodeId.rawNode 1)] c3s2 c3next
      [Effect.addChild (NodeId.rawNode 2), Effect.makeNodeNative (NodeId.rawNode 2),
       Effect.removeChild (NodeId.rawNode 1)] c3s3
      (by decide) (by decide) (by decide) (by decide) (by decide)).2.2

/-- C5: for two bags with the same animated key set and the reattach-all flag
clear, updateProps replaces exactly the keys whose values are not deep-equal,
where the comparison of AnimatedEvent values excludes the cached
_attachedEvent state; every other key contributes no effects and its last
value is carried into the new bag by reference. -/
theorem claim_C5_updateProps_diff_minimal (s : AState) (next : Bag)
    (E : List Effect) (s2 : AState)
    (hra : s.reattachAll = false)
    (hnodup : (animatedKeysF next).Nodup)
    (hsub : ∀ k ∈ animatedKeysF s.props, k ∈ animatedKeysF next)
    (hok : updateProps s next = .ok (E, s2)) :
    (∀ nm iN a b, animatedDiff (some (.event nm iN a)) (some (.event nm iN b)) = false) ∧
    ∃ f, E = (animatedKeysF next).flatMap f ∧
      ∀ k ∈ animatedKeysF next,
        (animatedDiff (bagLookup s.props k) (bagLookup next k) = false →
          f k = [] ∧ bagLookup s2.props k = bagLookup s.props k) ∧
        (animatedDiff (bagLookup s.props k) (bagLookup next k) = true →
          ∃ sa v1 sb, replaceProp sa k (bagLookup s.props k) (bagLookup next k) =
            .ok (f k, v1, sb)) := by
  constructor
  · intro nm iN a b
    simp [animatedDiff, stripAttachedEvent]
  · obtain ⟨f, Ed, hE, _, hper, _, hEdnil⟩ := updateProps_char s next E s2 hnodup hok
    have hEd : Ed = [] := hEdnil hsub
    refine ⟨f, by rw [hE, hEd, List.append_nil], ?_⟩
    intro k hk
    have h1 := hper k hk
    rw [hra] at h1
    simpa using h1

/-- C5 witness: a two-key bag where only the node under a changed; the event
under b differs only in its cached attachment state and is carried over by
reference with no effects. -/
theorem claim_C5_witness :
    updateProps c5s c5next =
      .ok ([Effect.addChild (NodeId.rawNode 9), Effect.removeChild (NodeId.rawNode 1)], c5s2) ∧
    animatedDiff (bagLookup c5s.props "b") (bagLookup c5next "b") = false ∧
    bagLookup c5s2.props "b" = bagLookup c5s.props "b" := by
  refine ⟨by decide, by decide, ?_⟩
  obtain ⟨_, f, hE, hper⟩ := claim_C5_updateProps_diff_minimal c5s c5next
    [Effect.addChild (NodeId.rawNode 9), Effect.removeChild (NodeId.rawNode 1)] c5s2
    (by decide) (by decide) (by decide) (by decide)
  exact ((hper "b" (by decide)).1 (by decide)).2

/-- C4 counterexample: with a key added between two bags (the animated key
sets differ), AnimatedProps.updateProps attaches only the added key; the
unchanged key keeps its node untouched (no addChild and no removeChild for
node 1), so not every animated key is reattached. -/
theorem claim_C4_counterexample :
    animatedKeysF c4s.props ≠ animatedKeysF c4next ∧
    updateProps c4s c4next = .ok ([Effect.addChild (NodeId.rawNode 2)], c4s2) ∧
    Effect.addChild (NodeId.rawNode 1) ∉ [Effect.addChild (NodeId.rawNode 2)] ∧
    Effect.removeChild (NodeId.rawNode 1) ∉ [Effect.addChild (NodeId.rawNode 2)] := by
  exact ⟨by decide, by decide, by decide, by decide⟩

/-- C4 (amended): a change in the set of animated value keys is detected as a
structural (truthy) change by animatedValuePropsChanged, upon which the first
createAnimatedComponent rebuilds: _attachProps constructs a fresh
AnimatedProps whose constructor attaches every animated key of the next bag
(the composite for a plain style value, the node itself otherwise) and only
then detaches the old instance; updateProps itself, in contrast, replaces
exactly the keys whose values differ — added keys included, since their
previous value is undefined — and leaves unchanged keys carried by reference,
with removed keys only detached. -/
theorem claim_C4_structural_change_conservatism :
    (∀ cur next : Bag, animatedValueKeysF cur ≠ animatedValueKeysF next →
      animatedValuePropsChangedF cur next = ChangedResult.changedStructural ∧
      changedTruthy (animatedValuePropsChangedF cur next) = true) ∧
    (∀ (cur : Bag) (old : AState) (force : Bool) (next : Bag) (E : List Effect)
       (fresh : AState),
      changedTruthy (animatedValuePropsChangedF cur next) = true →
      attachPropsV1 cur (some old) force next = .ok (E, fresh) →
      ∃ eNew eOld oldS, newAnimatedProps next = .ok (eNew, fresh) ∧
        detachAnimated old = .ok (eOld, oldS) ∧ E = eNew ++ eOld) ∧
    (∀ (bag : Bag) (E : List Effect) (s1 : AState), newAnimatedProps bag = .ok (E, s1) →
      ∀ k v, (k, v) ∈ bag →
        ((k = "style" ∧ isAnimatedStyleV v = false) →
          ∃ cid, Effect.addChild (NodeId.comp cid) ∈ E) ∧
        (¬(k = "style" ∧ isAnimatedStyleV v = false) →
          ∀ nid, nodeIdOf v = some nid → Effect.addChild nid ∈ E)) ∧
    (∀ (s : AState) (next : Bag) (E : List Effect) (s2 : AState),
      s.reattachAll = false → (animatedKeysF next).Nodup →
      updateProps s next = .ok (E, s2) →
      ∃ f Ed, E = (animatedKeysF next).flatMap f ++ Ed ∧
        (∀ e ∈ Ed, (∃ n, e = Effect.removeChild n) ∨
          (∃ vt kk, e = Effect.eventDetach vt kk)) ∧
        ∀ k ∈ animatedKeysF next,
          (animatedDiff (bagLookup s.props k) (bagLookup next k) = false →
            f k = [] ∧ bagLookup s2.props k = bagLookup s.props k) ∧
          (bagLookup s.props k = none →
            ∃ sa v1 sb, replaceProp sa k none (bagLookup next k) = .ok (f k, v1, sb))) := by
  refine ⟨?_, ?_, ?_, ?_⟩
  · intro cur next hne
    have hst : animatedValuePropsChangedF cur next = ChangedResult.changedStructural := by
      simp only [animatedValuePropsChangedF, animatedPropsChangedF]
      rw [if_neg hne]
    exact ⟨hst, by rw [hst]; rfl⟩
  · exact fun cur old force next E fresh hch hok =>
      attachPropsV1_rebuild cur old force next E fresh hch hok
  · exact fun bag E s1 h => newAnimatedProps_marks bag E s1 h
  · intro s next E s2 hra hnodup hok
    obtain ⟨f, Ed, hE, _, hper, hEd, _⟩ := updateProps_char s next E s2 hnodup hok
    refine ⟨f, Ed, hE, hEd, ?_⟩
    intro k hk
    have h1 := hper k hk
    rw [hra] at h1
    simp only [Bool.false_or] at h1
    constructor
    · exact h1.1
    · intro hnone
      obtain ⟨w, hw⟩ := bagLookup_isSome_of_mem_keys next k (animatedKeysF_sub_keys next k hk)
      have hd : animatedDiff (bagLookup s.props k) (bagLookup next k) = true := by
        rw [hnone, hw]
        exact animatedDiff_none_some w
      obtain ⟨sa, v1, sb, hrep⟩ := h1.2 hd
      rw [hnone] at hrep
      exact ⟨sa, v1, sb, hrep⟩

/-- C4 witness: the amended statements exercised at a concrete key-set change:
the wrapper path detects it as structural and a fresh instance attaches both
keys. -/
theorem claim_C4_witness :
    animatedValueKeysF c4s.props ≠ animatedValueKeysF c4next ∧
    changedTruthy (animatedValuePropsChangedF c4s.props c4next) = true ∧
    Effect.addChild (NodeId.rawNode 1) ∈
      [Effect.addChild (NodeId.rawNode 1), Effect.addChild (NodeId.rawNode 2)] ∧
    newAnimatedProps c4next =
      .ok ([Effect.addChild (NodeId.rawNode 1), Effect.addChild (NodeId.rawNode 2)],
        initialAState c4next) := by
  refine ⟨by decide, ?_, ?_, by decide⟩
  · exact (claim_C4_structural_change_conservatism.1 c4s.props c4next (by decide)).2
  · exact (claim_C4_structural_change_conservatism.2.2.1 c4next
      [Effect.addChild (NodeId.rawNode 1), Effect.addChild (NodeId.rawNode 2)]
      (initialAState c4next) (by decide) "op" (PropValue.node 1 false 5) (by decide)).2
      (by decide) (NodeId.rawNode 1) (by decide)

/-- C6 counterexample: for a structurally changed key, updateProps attaches
the new binding first and detaches the old one afterwards — the opposite of
the claimed detach-then-attach per-key order. -/
theorem claim_C6_counterexample :
    updateProps c6s c6next =
      .ok ([Effect.addChild (NodeId.rawNode 2), Effect.removeChild (NodeId.rawNode 1)],
        c6s2) ∧
    [Effect.addChild (NodeId.rawNode 2), Effect.removeChild (NodeId.rawNode 1)] ≠
      [Effect.removeChild (NodeId.rawNode 1), Effect.addChild (NodeId.rawNode 2)] := by
  exact ⟨by decide, by decide⟩

/-- C6 (amended): each structurally changed key is replaced by attaching the
new binding and then detaching the old one (attach-before-detach per key); a
wholesale replacement by the first createAnimatedComponent likewise attaches
every new node before detaching the old instance; removed keys are detached
only; unchanged keys are carried over verbatim. -/
theorem claim_C6_attach_then_detach_order :
    (∀ (s : AState) (k : String) (lv nv : Option PropValue) (E : List Effect)
       (v1 : Option PropValue) (s1 : AState),
      replaceProp s k lv nv = .ok (E, v1, s1) →
      ∃ ea ed, E = ea ++ ed ∧ (∀ e ∈ ea, attachShaped e) ∧
        (∀ e ∈ ed, (∃ n, e = Effect.removeChild n) ∨
          (∃ vt kk, e = Effect.eventDetach vt kk))) ∧
    (∀ (cur : Bag) (old : AState) (force : Bool) (next : Bag) (E : List Effect)
       (fresh : AState),
      changedTruthy (animatedValuePropsChangedF cur next) = true →
      attachPropsV1 cur (some old) force next = .ok (E, fresh) →
      ∃ eNew eOld, E = eNew ++ eOld ∧ (∀ e ∈ eNew, attachShaped e) ∧
        (∀ e ∈ eOld, detachShaped e)) ∧
    (∀ (s : AState) (next : Bag) (E : List Effect) (s2 : AState),
      (animatedKeysF next).Nodup → updateProps s next = .ok (E, s2) →
      ∃ f Ed, E = (animatedKeysF next).flatMap f ++ Ed ∧
        (∀ e ∈ Ed, (∃ n, e = Effect.removeChild n) ∨
          (∃ vt kk, e = Effect.eventDetach vt kk)) ∧
        (∀ k ∈ animatedKeysF next,
          (s.reattachAll || animatedDiff (bagLookup s.props k) (bagLookup next k)) = false →
          f k = [] ∧ bagLookup s2.props k = bagLookup s.props k)) := by
  refine ⟨replaceProp_attach_before_detach, ?_, ?_⟩
  · intro cur old force next E fresh hch hok
    obtain ⟨eNew, eOld, oldS, h1, h2, hE⟩ :=
      attachPropsV1_rebuild cur old force next E fresh hch hok
    exact ⟨eNew, eOld, hE, newAnimatedProps_effects next eNew fresh h1,
      detachAnimated_effects old eOld oldS h2⟩
  · intro s next E s2 hnodup hok
    obtain ⟨f, Ed, hE, _, hper, hEd, _⟩ := updateProps_char s next E s2 hnodup hok
    exact ⟨f, Ed, hE, hEd, fun k hk => (hper k hk).1⟩

/-- C6 witness: the per-key decomposition applied to the concrete replacement
of the node under o1. -/
theorem claim_C6_witness :
    replaceProp c6s "o1" (some (PropValue.node 1 false 0)) (some (PropValue.node 2 false 1)) =
      .ok ([Effect.addChild (NodeId.rawNode 2), Effect.removeChild (NodeId.rawNode 1)],
        some (PropValue.node 2 false 1), c6s) ∧
    ∃ ea ed,
      [Effect.addChild (NodeId.rawNode 2), Effect.removeChild (NodeId.rawNode 1)] =
        ea ++ ed ∧
      (∀ e ∈ ea, attachShaped e) ∧
      (∀ e ∈ ed, (∃ n, e = Effect.removeChild n) ∨
        (∃ vt kk, e = Effect.eventDetach vt kk)) := by
  refine ⟨by decide, ?_⟩
  exact claim_C6_attach_then_detach_order.1 c6s "o1"
    (some (PropValue.node 1 false 0)) (some (PropValue.node 2 false 1))
    [Effect.addChild (NodeId.rawNode 2), Effect.removeChild (NodeId.rawNode 1)]
    (some (PropValue.node 2 false 1)) c6s (by decide)

/-- C7 counterexample: a style key whose cached composite is native is not
omitted from the getValue result; it resolves through the composite. -/
theorem claim_C7_counterexample :
    c7s.styleProp = some { cid := 0, src := [("op", StyleEntry.plainE 1)], isNat := true } ∧
    getValue c7s = .ok ([("style", RVal.styleR [("op", 1)])], c7s1) ∧
    rlookup [("style", RVal.styleR [("op", 1)])] "style" ≠ none := by
  exact ⟨rfl, by decide, by decide⟩

/-- C7 (amended): getValue sets the snapshot-returned marker and resolves the
bag as follows — native non-style animated values are omitted, non-native
animated values resolve to their current value, AnimatedStyle values and the
style key always resolve through the (possibly native) composite,
AnimatedEvents resolve to an invocable handler, and plain values pass
through; this holds for every bag satisfying the style composite invariant. -/
theorem claim_C7_getValue_resolution (s : AState)
    (hnodup : (s.props.map Prod.fst).Nodup)
    (hsty : ("style" ∈ s.props.map Prod.fst) → s.styleProp.isSome = true) :
    ∃ res, getValue s = .ok (res, { s with firstValueReturned := true }) ∧
      ({ s with firstValueReturned := true } : AState).firstValueReturned = true ∧
      ∀ k v, (k, v) ∈ s.props →
        (k = "style" → ∃ c, s.styleProp = some c ∧
          rlookup res k = some (RVal.styleR (resolveStyle c.src))) ∧
        (k ≠ "style" →
          (∀ id val, v = PropValue.node id true val → rlookup res k = none) ∧
          (∀ id val, v = PropValue.node id false val →
            rlookup res k = some (RVal.num val)) ∧
          (∀ id b es, v = PropValue.styleNode id b es →
            rlookup res k = some (RVal.styleR (resolveStyle es))) ∧
          (∀ nm b a, v = PropValue.event nm b a →
            rlookup res k = some (RVal.handlerR nm)) ∧
          (∀ n, v = PropValue.plain n → rlookup res k = some (RVal.num n)) ∧
          (∀ b, v = PropValue.plainB b → rlookup res k = some (RVal.boolV b)) ∧
          (∀ es, v = PropValue.styleObj es → rlookup res k = some (RVal.rawObj es))) := by
  obtain ⟨res, hres⟩ := getValueGo_ok { s with firstValueReturned := true } s.props hsty
  refine ⟨res, ?_, rfl, ?_⟩
  · unfold getValue
    rw [hres]
  · intro k v hm
    have hl := getValueGo_lookup { s with firstValueReturned := true } s.props res hnodup
      hres k v hm
    constructor
    · intro hks
      subst hks
      have hsome := hsty (List.mem_map.mpr ⟨("style", v), hm, rfl⟩)
      cases hc : s.styleProp with
      | none => rw [hc] at hsome; simp at hsome
      | some c =>
        refine ⟨c, rfl, ?_⟩
        apply hl.2 (RVal.styleR (resolveStyle c.src))
        unfold resolveValueEntry
        rw [if_pos rfl]
        simp only [hc]
    · intro hk
      refine ⟨?_, ?_, ?_, ?_, ?_, ?_, ?_⟩
      · intro id val hv
        subst hv
        apply hl.1
        unfold resolveValueEntry
        rw [if_neg hk]
        rfl
      · intro id val hv
        subst hv
        apply hl.2
        unfold resolveValueEntry
        rw [if_neg hk]
        rfl
      · intro id b es hv
        subst hv
        apply hl.2
        unfold resolveValueEntry
        rw [if_neg hk]
      · intro nm b a hv
        subst hv
        apply hl.2
        unfold resolveValueEntry
        rw [if_neg hk]
      · intro n hv
        subst hv
        apply hl.2
        unfold resolveValueEntry
        rw [if_neg hk]
      · intro b hv
        subst hv
        apply hl.2
        unfold resolveValueEntry
        rw [if_neg hk]
      · intro es hv
        subst hv
        apply hl.2
        unfold resolveValueEntry
        rw [if_neg hk]

/-- C7 witness: the characterization at a concrete bag mixing every value
kind; the native value node under n is the one omitted key. -/
theorem claim_C7_witness :
    getValue c7mix = .ok (c7res, { c7mix with firstValueReturned := true }) ∧
    rlookup c7res "n" = none ∧
    rlookup c7res "style" = some (RVal.styleR [("w", 1)]) := by
  obtain ⟨res, hgv, hfvr, hper⟩ := claim_C7_getValue_resolution c7mix (by decide) (by decide)
  have hconc : getValue c7mix = .ok (c7res, { c7mix with firstValueReturned := true }) := by
    decide
  have hres : c7res = res := by
    rw [hconc] at hgv
    simp only [Except.ok.injEq, Prod.mk.injEq] at hgv
    exact hgv.1
  refine ⟨hconc, ?_, ?_⟩
  · rw [hres]
    exact ((hper "n" (PropValue.node 3 true 8) (by decide)).2 (by decide)).1 3 8 rfl
  · rw [hres]
    obtain ⟨c, hc, hlk⟩ := (hper "style"
      (PropValue.styleObj [("w", StyleEntry.plainE 1)]) (by decide)).1 rfl
    have hcv : c = { cid := 0, src := [("w", StyleEntry.plainE 1)], isNat := false } := by
      have : c7mix.styleProp =
          some { cid := 0, src := [("w", StyleEntry.plainE 1)], isNat := false } := by decide
      rw [this] at hc
      injection hc with hc
      exact hc.symm
    rw [hlk, hcv]
    decide

/-- C8: the style key is normalized into exactly one cached AnimatedStyle
composite before any attachment (the subscription created is that of the
composite); attaching a second style without detaching, or detaching,
replacing, making native or resolving the style key while the cached
composite is missing, is a fatal invariant violation. -/
theorem claim_C8_style_composite_invariants :
    (∀ (s : AState) (es : List (String × StyleEntry)), s.styleProp = none →
      attachValueProp s "style" (some (PropValue.styleObj es)) =
        .ok ([Effect.addChild (NodeId.comp s.nextCompId)],
          { s with styleProp := some { cid := s.nextCompId, src := es, isNat := false },
                   nextCompId := s.nextCompId + 1 })) ∧
    (∀ (s : AState) (c : StyleComposite) (v : Option PropValue), s.styleProp = some c →
      isAnimatedStyleOpt v = false →
      attachValueProp s "style" v = .error "Expected last style prop to be detached") ∧
    (∀ (s : AState) (v : Option PropValue), s.styleProp = none →
      isAnimatedStyleOpt v = false →
      detachValueProp s "style" v = .error "Expected style prop to detach") ∧
    (∀ (s : AState) (lv nv : Option PropValue), s.styleProp = none →
      replaceProp s "style" lv nv = .error "Expected style prop to detach") ∧
    (∀ (s : AState) (v : Option PropValue), s.isNative = true → s.styleProp = none →
      makeValuePropNative s "style" v = .error "Expected style prop to make native") ∧
    (∀ (s : AState) (v : PropValue), s.styleProp = none → ("style", v) ∈ s.props →
      ∃ msg, getValue s = .error msg) := by
  refine ⟨?_, ?_, ?_, ?_, ?_, ?_⟩
  · intro s es h
    unfold attachValueProp
    rw [if_pos (by simp [isAnimatedStyleOpt, isAnimatedStyleV]), h]
    rfl
  · intro s c v h hsv
    unfold attachValueProp
    rw [if_pos (by simp [hsv]), h]
  · intro s v h hsv
    unfold detachValueProp
    rw [if_pos (by simp [hsv]), h]
  · intro s lv nv h
    unfold replaceProp
    rw [if_pos rfl, h]
  · intro s v hn h
    unfold makeValuePropNative
    rw [if_neg (by simp [hn]), if_pos rfl, h]
  · intro s v h hm
    obtain ⟨msg, hmsg⟩ :=
      getValueGo_style_error { s with firstValueReturned := true } h s.props v hm
    refine ⟨msg, ?_⟩
    unfold getValue
    rw [hmsg]

/-- C8 witness: the normalization and a missing-composite failure at concrete
inputs. -/
theorem claim_C8_witness :
    attachValueProp (initialAState [("style", PropValue.styleObj [("w", StyleEntry.plainE 1)])])
      "style" (some (PropValue.styleObj [("w", StyleEntry.plainE 1)])) =
      .ok ([Effect.addChild (NodeId.comp 0)],
        { initialAState [("style", PropValue.styleObj [("w", StyleEntry.plainE 1)])] with
            styleProp := some { cid := 0, src := [("w", StyleEntry.plainE 1)], isNat := false },
            nextCompId := 1 }) ∧
    detachValueProp (initialAState []) "style" (some (PropValue.styleObj [])) =
      .error "Expected style prop to detach" := by
  constructor
  · exact claim_C8_style_composite_invariants.1
      (initialAState [("style", PropValue.styleObj [("w", StyleEntry.plainE 1)])])
      [("w", StyleEntry.plainE 1)] rfl
  · exact claim_C8_style_composite_invariants.2.2.1 (initialAState [])
      (some (PropValue.styleObj [])) rfl rfl

end AnimatedRN
